import Mathlib

/-!
Shallow embedding of the `model-monitor` repository's core analyzer
(`src/analyzer.py`), together with proofs checking the natural-language
specification against it.

Conventions of the embedding:
* Python numbers (floats / ints) are modelled by `ℚ` and `Int`; the
  arithmetic in the source is exact apart from float rounding, which the
  spec itself treats as noise ("± floating rounding").
* Python dicts used as ordered key-value catalogues (`pricing`,
  `usage_ranks`) are association lists in insertion order; dict
  comprehensions where a later duplicate key overwrites an earlier one are
  modelled by a last-occurrence lookup.
* Python's stable `list.sort(key=...)` is modelled by a stable insertion
  sort on the same key.
* `logos.get_logo` (src/logos.py) reads an on-disk cache, shells out to an
  external CLI and performs HTTP requests; its observable behaviour from
  `analyze`'s point of view is an oracle `String → Option String` mapping a
  lab name to the logo URL that the call returns in the current external
  state.  `time.time()` inside `analyze` is likewise passed as an explicit
  `now` parameter.
* `dict.get` returning `None` is `Option`; `x or 0` on a possibly-`None`
  number is `Option.getD 0` (both `None` and `0` collapse to `0`).
-/

namespace ModelMonitor

/-! ## Basic categories and windows -/

/-- Leaderboard category ("general" / "coding"). -/
inductive Cat
  | general
  | coding
deriving DecidableEq, Repr

/-- Time window for baselines ("7d" / "30d"). -/
inductive Window
  | w7
  | w30
deriving DecidableEq, Repr

/-! ## String utilities (analyzer.py `_norm`, `_tokens`, `_token_overlap`) -/

/-- ASCII lower-case alphanumeric test, i.e. membership in `[a-z0-9]`. -/
def isLowAl (c : Char) : Bool :=
  (97 ≤ c.toNat && c.toNat ≤ 122) || (48 ≤ c.toNat && c.toNat ≤ 57)

/-- ASCII digit test, `[0-9]`. -/
def isDigitCh (c : Char) : Bool :=
  48 ≤ c.toNat && c.toNat ≤ 57

/-- Regex `\w` character class: `[A-Za-z0-9_]`. -/
def isWordCh (c : Char) : Bool :=
  c.isAlphanum || c == '_'

/-- `s.split("/", 1)[-1]`: everything after the first `/`, or the whole
string when there is no `/`. -/
def dropProvider (l : List Char) : List Char :=
  if l.contains '/' then (l.dropWhile (fun c => c != '/')).tail else l

/-- `_norm` on the character list: strip provider, lowercase, remove
everything outside `[a-z0-9]`. -/
def normChars (l : List Char) : List Char :=
  ((dropProvider l).map Char.toLower).filter isLowAl

/-- `_norm(s)`: strip provider prefix, remove non-alphanumerics, lowercase. -/
def norm (s : String) : String :=
  String.mk (normChars s.data)

/-- Does the (reversed) list start with 8 digits followed by `-`?  Matches
the reversal of regex `-\d{8}$`. -/
def dateSuffixRev (r : List Char) : Bool :=
  (r.take 8).all isDigitCh && r.length ≥ 9 && ((r.drop 8).head? == some '-')

/-- `re.sub(r"-\d{8}$", "", s)`: drop a trailing `-YYYYMMDD`. -/
def stripDate (l : List Char) : List Char :=
  let r := l.reverse
  if dateSuffixRev r then (r.drop 9).reverse else l

/-- `re.sub(r":\w+$", "", s)`: drop a trailing `:`-qualifier made of word
characters. -/
def stripVariant (l : List Char) : List Char :=
  let r := l.reverse
  let w := r.takeWhile isWordCh
  if w.length > 0 && ((r.drop w.length).head? == some ':') then
    (r.drop (w.length + 1)).reverse
  else l

/-- Split into maximal runs of `[a-z0-9]` characters (the complement of
`re.split(r"[^a-z0-9]+", ·)` with empties discarded). -/
def splitRuns : List Char → List (List Char)
  | [] => []
  | c :: t =>
    let rest := splitRuns t
    if isLowAl c then
      match t with
      | [] => [[c]]
      | d :: _ =>
        if isLowAl d then
          match rest with
          | g :: gs => (c :: g) :: gs
          | [] => [[c]]
        else [c] :: rest
    else rest

/-- `_tokens(s)`: token set for fuzzy matching — strip provider prefix,
trailing date suffix and trailing colon qualifier, split the lowercased
remainder on non-alphanumeric runs.  The Python set is modelled as a
duplicate-free list; the code only ever takes cardinalities of
intersections and unions of these sets, which the list represents
faithfully. -/
def tokens (s : String) : List String :=
  ((splitRuns ((stripVariant (stripDate (dropProvider s.data))).map Char.toLower)).map
    (fun l => String.mk l)).dedup

/-- `_token_overlap(a, b)`: Jaccard similarity of the two token sets, `0`
when either is empty.  On duplicate-free lists, `|a ∩ b|` is the count of
elements of `a` occurring in `b` and `|a ∪ b|` the count of distinct
elements of `a ++ b`. -/
def tokenOverlap (a b : List String) : ℚ :=
  if a = [] ∨ b = [] then 0
  else ((a.filter (fun x => b.contains x)).length : ℚ) / (((a ++ b).dedup).length : ℚ)

/-! ## Identifier matching (`_find_pricing` / `_find_usage_info`)

Both source functions run the identical loop; they differ only in the
"empty" value returned on a failed match (`{}` vs `None`), which the
embedding renders uniformly as `none`. -/

/-- The loop of `_find_pricing` / `_find_usage_info`: walk the catalogue in
order; return immediately on an exact normalized match; otherwise track the
best token-overlap candidate, returned at the end only when its score is at
least `0.5`. -/
def findMatchGo (key : String) (ktok : List String) (best : Option α) (bs : ℚ) :
    List (String × α) → Option α
  | [] => if bs ≥ 1/2 then best else none
  | (k, v) :: rest =>
    if norm k = key then some v
    else
      let s := tokenOverlap ktok (tokens k)
      if s > bs then findMatchGo key ktok (some v) s rest
      else findMatchGo key ktok best bs rest

/-- `_find_pricing(model_id, catalogue)` / `_find_usage_info`: match a
leaderboard id against a catalogue keyed by `provider/slug`. -/
def findMatch (mid : String) (catalogue : List (String × α)) : Option α :=
  findMatchGo (norm mid) (tokens mid) none 0 catalogue

/-! ## Publisher attribution and licensing (`get_lab_from_model_id`,
`get_is_open_source`) -/

/-- `startswith` on character lists. -/
def listStarts : List Char → List Char → Bool
  | [], _ => true
  | _ :: _, [] => false
  | a :: as, b :: bs => a == b && listStarts as bs

/-- `mid.split("/", 1)[-1].lower()`. -/
def localLower (model_id : String) : List Char :=
  (dropProvider model_id.data).map Char.toLower

/-- The ordered `RULES` table of `get_lab_from_model_id`. -/
def labRules : List (String × String) :=
  [("claude", "Anthropic"), ("gpt", "OpenAI"), ("o1", "OpenAI"), ("o3", "OpenAI"),
   ("chatgpt", "OpenAI"), ("gemini", "Google"), ("gemma", "Google"), ("grok", "xAI"),
   ("dola", "ByteDance"),
   ("llama-3.1-nemotron", "NVIDIA"), ("llama-3.3-nemotron", "NVIDIA"),
   ("nemotron", "NVIDIA"), ("llama", "Meta"), ("mistral", "Mistral"),
   ("mixtral", "Mistral"), ("ministral", "Mistral"), ("deepseek", "DeepSeek"),
   ("qwen", "Alibaba"), ("qwq", "Alibaba"), ("phi", "Microsoft"),
   ("command", "Cohere"), ("kimi", "Moonshot"), ("glm", "Zhipu"),
   ("granite", "IBM"), ("olmo", "AI2"), ("molmo", "AI2"),
   ("jamba", "AI21 Labs"), ("yi", "01.AI"),
   ("minimax", "MiniMax"), ("abab", "MiniMax"),
   ("ernie", "Baidu")]

/-- `get_lab_from_model_id`: first matching prefix rule wins, else "Unknown". -/
def get_lab_from_model_id (model_id : String) : String :=
  let mid := localLower model_id
  match labRules.find? (fun p => listStarts p.1.data mid) with
  | some p => p.2
  | none => "Unknown"

/-- The `OPEN` prefix allow-list of `get_is_open_source`. -/
def openRules : List String :=
  ["llama", "gemma", "mistral", "mixtral", "ministral", "deepseek",
   "qwen", "qwq", "phi", "command-r", "granite", "olmo", "molmo",
   "jamba", "llama-3.1-nemotron", "llama-3.3-nemotron"]

/-- `get_is_open_source`: does any open prefix match the local name? -/
def get_is_open_source (model_id : String) : Bool :=
  let mid := localLower model_id
  openRules.any (fun p => listStarts p.data mid)

/-- One step of Python `str.title()`: uppercase a letter that follows a
non-letter, lowercase the rest. -/
def titleGo : Bool → List Char → List Char
  | _, [] => []
  | prevAlpha, c :: t =>
    (if c.isAlpha then (if prevAlpha then c.toLower else c.toUpper) else c) ::
      titleGo c.isAlpha t

/-- `_model_display`: replace `-` and `_` by spaces, then title-case. -/
def _model_display (model_id : String) : String :=
  String.mk (titleGo false
    (model_id.data.map (fun c => if c == '-' || c == '_' then ' ' else c)))

/-! ## Data model -/

/-- One leaderboard row (`{rank, model_id, score, votes}`), as read from the
`current` / `previous_7d` / `previous_30d` snapshots. -/
structure RankRow where
  rank : Int
  model_id : String
  score : ℚ
  votes : Int
deriving DecidableEq, Repr

/-- One `pricing` catalogue value
(`{price_input, price_output, context_length, created}`); absent dict keys
are `none`. -/
structure PriceInfo where
  price_input : Option ℚ
  price_output : Option ℚ
  context_length : Option ℚ
  created : Option Int
deriving DecidableEq, Repr

/-- One `usage_ranks` catalogue value (`{rank, tokens}`); the code reads the
values as dicts (guarded by `isinstance(_ui, dict)`), so the embedding types
them as such. -/
structure UsageInfo where
  rank : Option Int
  tokens : Option ℚ
deriving DecidableEq, Repr

/-- The merged signal row built by `analyze` for every current entry. -/
structure MergedRow where
  model_id : String
  model_display : String
  rank : Int
  elo : ℚ
  votes : Int
  prev_rank : Option Int
  rank_delta : Option Int
  price_input : Option ℚ
  price_output : Option ℚ
  days_in_board : Option Int
  or_rank : Option Int
  or_volume : Option ℚ
  context_length : Option ℚ
  is_riser : Bool
  is_new_star : Bool
  lab : String
  lab_logo : Option String
  is_open_source : Bool
deriving DecidableEq, Repr

/-- A `new_stars` entry: a merged-row copy with the extra `category` key. -/
structure StarRow where
  row : MergedRow
  category : Cat
deriving DecidableEq, Repr

/-- The `lmarena` input of `analyze`.  `previous_7d`/`previous_30d` are
normalized by `lmarena.get(...) or {}` followed by `.get(cat, [])`, so a
missing baseline is the empty list. -/
structure LmArena where
  current_general : List RankRow
  current_coding : List RankRow
  prev7_general : List RankRow
  prev7_coding : List RankRow
  prev30_general : List RankRow
  prev30_coding : List RankRow
  fetched_at : Int
deriving DecidableEq, Repr

/-- Current rows per category (`current.get(cat, [])`). -/
def LmArena.cur (l : LmArena) : Cat → List RankRow
  | .general => l.current_general
  | .coding => l.current_coding

/-- Baseline rows per window and category. -/
def LmArena.prevW (l : LmArena) : Window → Cat → List RankRow
  | .w7, .general => l.prev7_general
  | .w7, .coding => l.prev7_coding
  | .w30, .general => l.prev30_general
  | .w30, .coding => l.prev30_coding

/-- The `or_data` input of `analyze` (from `openrouter.fetch()`). -/
structure ORData where
  pricing : List (String × PriceInfo)
  usage_ranks : List (String × UsageInfo)
deriving DecidableEq, Repr

/-- Output of `analyze`.  (`last_updated`, a strftime rendering of
`fetched_at`, is presentation-only and carried by the input unchanged, so it
is not repeated here.) -/
structure AnalysisResult where
  rankings_general : List MergedRow
  rankings_coding : List MergedRow
  fast_risers_7d_general : List MergedRow
  fast_risers_7d_coding : List MergedRow
  fast_risers_30d_general : List MergedRow
  fast_risers_30d_coding : List MergedRow
  new_stars_7d : List StarRow
  new_stars_30d : List StarRow
deriving DecidableEq, Repr

/-- `analysis_result["rankings"][cat]`. -/
def AnalysisResult.rankings (a : AnalysisResult) : Cat → List MergedRow
  | .general => a.rankings_general
  | .coding => a.rankings_coding

/-- `analysis_result["fast_risers"][window][cat]`. -/
def AnalysisResult.fast_risers (a : AnalysisResult) : Window → Cat → List MergedRow
  | .w7, .general => a.fast_risers_7d_general
  | .w7, .coding => a.fast_risers_7d_coding
  | .w30, .general => a.fast_risers_30d_general
  | .w30, .coding => a.fast_risers_30d_coding

/-- `analysis_result["new_stars"][window]`. -/
def AnalysisResult.new_stars (a : AnalysisResult) : Window → List StarRow
  | .w7 => a.new_stars_7d
  | .w30 => a.new_stars_30d

/-! ## Stable sorting by key (Python `list.sort(key=...)`) -/

/-- Python's stable `sort(key=f)`: stable sort, ascending in the key. -/
def sortByKey [LinearOrder β] (key : α → β) (l : List α) : List α :=
  @List.insertionSort α (fun a b => key a ≤ key b)
    (fun a b => inferInstanceAs (Decidable (key a ≤ key b))) l

/-! ## The analysis pipeline (`analyze`) -/

/-- `{r["model_id"]: r["rank"] for r in rows}`, looked up at `mid`: a dict
comprehension keeps the last duplicate, hence the reversed search. -/
def prevLookup (rows : List RankRow) (mid : String) : Option Int :=
  (rows.reverse.find? (fun r => r.model_id == mid)).map (fun r => r.rank)

/-- Build one merged row (the body of the first loop of `analyze`). -/
def buildRow (now : Int) (logoEnv : String → Option String)
    (pricing : List (String × PriceInfo)) (usage : List (String × UsageInfo))
    (prev7rows : List RankRow) (row : RankRow) : MergedRow :=
  let mid := row.model_id
  let prev := prevLookup prev7rows mid
  let price_info := findMatch mid pricing
  let usage_info := findMatch mid usage
  { model_id := mid
    model_display := _model_display mid
    rank := row.rank
    elo := row.score
    votes := row.votes
    prev_rank := prev
    rank_delta := prev.map (fun p => p - row.rank)
    price_input := price_info.bind (fun p => p.price_input)
    price_output := price_info.bind (fun p => p.price_output)
    days_in_board :=
      match price_info.bind (fun p => p.created) with
      | some c => if c ≠ 0 then some ((now - c).tdiv 86400) else none
      | none => none
    or_rank := usage_info.bind (fun u => u.rank)
    or_volume := usage_info.bind (fun u => u.tokens)
    context_length := price_info.bind (fun p => p.context_length)
    is_riser := false
    is_new_star := false
    lab := get_lab_from_model_id mid
    lab_logo := logoEnv (get_lab_from_model_id mid)
    is_open_source := get_is_open_source mid }

/-- The sort key `x["rank_delta"]` of a riser entry (always present there). -/
def deltaOf (r : MergedRow) : Int :=
  r.rank_delta.getD 0

/-- The riser list of one window: entries present in the baseline with a
strictly positive delta, the copy's `rank_delta` overwritten with the
window's delta, sorted by `-rank_delta` and truncated to 10. -/
def risersOf (prevRows : List RankRow) (merged : List MergedRow) : List MergedRow :=
  let base := merged.filterMap (fun r =>
    match prevLookup prevRows r.model_id with
    | some p => if p - r.rank > 0 then some { r with rank_delta := some (p - r.rank) } else none
    | none => none)
  (sortByKey (fun x => -deltaOf x) base).take 10

/-- `top50` of a baseline: ids of baseline rows with rank ≤ 50. -/
def top50Ids (rows : List RankRow) : List String :=
  (rows.filter (fun r => decide (r.rank ≤ 50))).map (fun r => r.model_id)

/-- The new-star condition:
`r["rank"] <= 30 and r["model_id"] not in top50 and top50`. -/
def newStarCond (top50 : List String) (r : MergedRow) : Bool :=
  decide (r.rank ≤ 30) && !(top50.contains r.model_id) && !top50.isEmpty

/-- The 7d-window in-place flag update `r["is_new_star"] = True`. -/
def setStar (t50 : List String) (r : MergedRow) : MergedRow :=
  if newStarCond t50 r then { r with is_new_star := true } else r

/-- The in-place flag update `r["is_riser"] = True` for ids in the 7d riser
list. -/
def setRiser (ids : List String) (r : MergedRow) : MergedRow :=
  if ids.contains r.model_id then { r with is_riser := true } else r

/-- Per-category results of one pass of the main loop of `analyze`. -/
structure CatResult where
  final : List MergedRow
  risers7 : List MergedRow
  risers30 : List MergedRow
  stars7 : List MergedRow
  stars30 : List MergedRow
deriving DecidableEq, Repr

/-- One category iteration of `analyze`, sequencing the in-place updates of
the source as successive list states:
`merged0` (rows as built) → 7d risers (copies of `merged0`) → `merged1`
(7d new-star flags set) → 7d star copies → 30d risers/stars (computed from
`merged1`) → `final` (7d riser flags set). -/
def analyzeCat (now : Int) (logoEnv : String → Option String)
    (pricing : List (String × PriceInfo)) (usage : List (String × UsageInfo))
    (prev7rows prev30rows curRows : List RankRow) : CatResult :=
  let merged0 := curRows.map (buildRow now logoEnv pricing usage prev7rows)
  let risers7 := risersOf prev7rows merged0
  let t50_7 := top50Ids prev7rows
  let merged1 := merged0.map (setStar t50_7)
  let stars7 := merged1.filter (newStarCond t50_7)
  let risers30 := risersOf prev30rows merged1
  let t50_30 := top50Ids prev30rows
  let stars30 := merged1.filter (newStarCond t50_30)
  let riserIds7 := risers7.map (fun r => r.model_id)
  let final := merged1.map (setRiser riserIds7)
  { final := final, risers7 := risers7, risers30 := risers30,
    stars7 := stars7, stars30 := stars30 }

/-- The list state `merged` right after the build loop (all flags false). -/
def merged0Of (now : Int) (logoEnv : String → Option String)
    (pricing : List (String × PriceInfo)) (usage : List (String × UsageInfo))
    (prev7rows curRows : List RankRow) : List MergedRow :=
  curRows.map (buildRow now logoEnv pricing usage prev7rows)

/-- The list state `merged` after the 7d new-star marking. -/
def merged1Of (now : Int) (logoEnv : String → Option String)
    (pricing : List (String × PriceInfo)) (usage : List (String × UsageInfo))
    (prev7rows curRows : List RankRow) : List MergedRow :=
  (merged0Of now logoEnv pricing usage prev7rows curRows).map
    (setStar (top50Ids prev7rows))

/-- The general-category pass of `analyze`. -/
def catG (lm : LmArena) (ord : ORData) (now : Int)
    (logoEnv : String → Option String) : CatResult :=
  analyzeCat now logoEnv ord.pricing ord.usage_ranks
    lm.prev7_general lm.prev30_general lm.current_general

/-- The coding-category pass of `analyze`. -/
def catC (lm : LmArena) (ord : ORData) (now : Int)
    (logoEnv : String → Option String) : CatResult :=
  analyzeCat now logoEnv ord.pricing ord.usage_ranks
    lm.prev7_coding lm.prev30_coding lm.current_coding

/-- `analyze(lmarena, aa, or_data)`.  The `aa` argument is unused in the
source body and therefore omitted; `now` stands for the `time.time()` call
and `logoEnv` for the external state observed by `logos.get_logo`. -/
def analyze (lm : LmArena) (ord : ORData) (now : Int)
    (logoEnv : String → Option String) : AnalysisResult :=
  let g := catG lm ord now logoEnv
  let c := catC lm ord now logoEnv
  { rankings_general := g.final
    rankings_coding := c.final
    fast_risers_7d_general := g.risers7
    fast_risers_7d_coding := c.risers7
    fast_risers_30d_general := g.risers30
    fast_risers_30d_coding := c.risers30
    new_stars_7d := sortByKey (fun s => s.row.rank)
      (g.stars7.map (fun r => ⟨r, Cat.general⟩) ++ c.stars7.map (fun r => ⟨r, Cat.coding⟩))
    new_stars_30d := sortByKey (fun s => s.row.rank)
      (g.stars30.map (fun r => ⟨r, Cat.general⟩) ++ c.stars30.map (fun r => ⟨r, Cat.coding⟩)) }

/-! ## Company scorecard (`get_company_scorecard`) -/

/-- The per-lab accumulator created by `_get` in `get_company_scorecard`. -/
structure LabEntry where
  lab : String
  lab_logo : Option String
  top10_general : ℕ
  top10_coding : ℕ
  top30_general : ℕ
  top30_coding : ℕ
  fast_risers : ℕ
  new_stars : ℕ
  best_rank : Option Int
  top_model : Option String
  oss_count : ℕ
  proprietary_count : ℕ
  market_volume : ℚ
  revenue_proxy : ℚ
deriving DecidableEq, Repr

/-- A finished scorecard entry: the accumulator plus the derived fields
computed in the final pass. -/
structure ScoreEntry extends LabEntry where
  market_share_pct : ℚ
  category_leader : Bool
  momentum_score : ℕ
  investment_score : ℚ
deriving DecidableEq, Repr

/-- Python `round(x, 1)` (round-half-to-even at one decimal), on exact
rationals. -/
def roundHalfEven (x : ℚ) : ℤ :=
  let n := ⌊x⌋
  let f := x - n
  if f < 1/2 then n
  else if 1/2 < f then n + 1
  else if n % 2 = 0 then n else n + 1

/-- `round(·, 1)`. -/
def round1 (q : ℚ) : ℚ :=
  (roundHalfEven (q * 10) : ℚ) / 10

/-- The rows of both categories tagged with their category, in the
iteration order `for cat in ("general", "coding"): for r in rankings[cat]`. -/
def taggedRows (ar : AnalysisResult) : List (Cat × MergedRow) :=
  ar.rankings_general.map (fun r => (Cat.general, r)) ++
    ar.rankings_coding.map (fun r => (Cat.coding, r))

/-- The total-volume pass: sum `or_volume or 0` over rows whose `model_id`
was not seen yet. -/
def totalVolGo : List (Cat × MergedRow) → List String → ℚ → ℚ
  | [], _, acc => acc
  | (_, r) :: t, seen, acc =>
    if seen.contains r.model_id then totalVolGo t seen acc
    else totalVolGo t (r.model_id :: seen) (acc + r.or_volume.getD 0)

/-- `total_volume`: market volume summed once per unique model id. -/
def totalVolume (ar : AnalysisResult) : ℚ :=
  totalVolGo (taggedRows ar) [] 0

/-- Python `min(rows, key=lambda r: r["rank"])`: the first row of minimal
rank (`none` on an empty list, where the source skips the category). -/
def minByRank : List MergedRow → Option MergedRow :=
  List.foldl (fun acc x =>
    match acc with
    | none => some x
    | some c => if x.rank < c.rank then some x else some c) none

/-- `leader_labs`: labs of the rank-1 row of each non-empty category. -/
def leaderLabs (ar : AnalysisResult) : List String :=
  (match minByRank ar.rankings_general with
   | some r => [r.lab]
   | none => []) ++
  (match minByRank ar.rankings_coding with
   | some r => [r.lab]
   | none => [])

/-- The default accumulator `_get` creates for an unseen lab. -/
def defaultLab (lab : String) (logo : Option String) : LabEntry :=
  { lab := lab, lab_logo := logo,
    top10_general := 0, top10_coding := 0, top30_general := 0, top30_coding := 0,
    fast_risers := 0, new_stars := 0, best_rank := none, top_model := none,
    oss_count := 0, proprietary_count := 0, market_volume := 0, revenue_proxy := 0 }

/-- `logo or logos.get_logo(lab)`: a falsy first argument (absent or empty
string) falls back to the logo lookup. -/
def logoOr (logoEnv : String → Option String) (logo : Option String) (lab : String) :
    Option String :=
  match logo with
  | some s => if s = "" then logoEnv lab else some s
  | none => logoEnv lab

/-- `_get(lab, logo)` followed by an in-place update `f` of the entry:
update the existing association-list entry, or append a fresh one. -/
def modifyLab (lab : String) (dflt : LabEntry) (f : LabEntry → LabEntry) :
    List (String × LabEntry) → List (String × LabEntry)
  | [] => [(lab, f dflt)]
  | (k, e) :: t =>
    if k = lab then (k, f e) :: t else (k, e) :: modifyLab lab dflt f t

/-- `entry[f"top10_{cat}"] += 1` when `rank <= 10`. -/
def updTop10 (cat : Cat) (r : MergedRow) (e : LabEntry) : LabEntry :=
  if r.rank ≤ 10 then
    match cat with
    | .general => { e with top10_general := e.top10_general + 1 }
    | .coding => { e with top10_coding := e.top10_coding + 1 }
  else e

/-- `entry[f"top30_{cat}"] += 1` when `rank <= 30`. -/
def updTop30 (cat : Cat) (r : MergedRow) (e : LabEntry) : LabEntry :=
  if r.rank ≤ 30 then
    match cat with
    | .general => { e with top30_general := e.top30_general + 1 }
    | .coding => { e with top30_coding := e.top30_coding + 1 }
  else e

/-- Track the best (lowest) rank and its model as flagship. -/
def updBest (r : MergedRow) (e : LabEntry) : LabEntry :=
  match e.best_rank with
  | none => { e with best_rank := some r.rank, top_model := some r.model_display }
  | some b =>
    if r.rank < b then { e with best_rank := some r.rank, top_model := some r.model_display }
    else e

/-- Volume / revenue / licensing counting, performed once per unique model. -/
def updVol (r : MergedRow) (isNew : Bool) (e : LabEntry) : LabEntry :=
  if isNew then
    let vol := r.or_volume.getD 0
    let avg := ((r.price_input.getD 0) + (r.price_output.getD 0)) / 2
    let e4 := { e with
      market_volume := e.market_volume + vol,
      revenue_proxy := e.revenue_proxy + vol * avg / 1000000 }
    if r.is_open_source then { e4 with oss_count := e4.oss_count + 1 }
    else { e4 with proprietary_count := e4.proprietary_count + 1 }
  else e

/-- The per-row accumulator update of the scorecard's main loop. -/
def rowUpd (cat : Cat) (r : MergedRow) (isNew : Bool) (e : LabEntry) : LabEntry :=
  updVol r isNew (updBest r (updTop30 cat r (updTop10 cat r e)))

/-- The scorecard's main loop over tagged rows, threading the lab table and
the `seen_unique` set. -/
def scoreRowsGo (logoEnv : String → Option String) :
    List (Cat × MergedRow) → List (String × LabEntry) → List String →
      List (String × LabEntry)
  | [], labs, _ => labs
  | (cat, r) :: t, labs, seen =>
    let isNew := !(seen.contains r.model_id)
    let labs2 := modifyLab r.lab (defaultLab r.lab (logoOr logoEnv r.lab_logo r.lab))
      (rowUpd cat r isNew) labs
    scoreRowsGo logoEnv t labs2 (if isNew then r.model_id :: seen else seen)

/-- `fast_risers += 1`. -/
def bumpRisers (e : LabEntry) : LabEntry :=
  { e with fast_risers := e.fast_risers + 1 }

/-- `new_stars += 1`. -/
def bumpStars (e : LabEntry) : LabEntry :=
  { e with new_stars := e.new_stars + 1 }

/-- The fast-riser counting pass of the scorecard. -/
def riserPass (logoEnv : String → Option String) (rows : List MergedRow)
    (labs : List (String × LabEntry)) : List (String × LabEntry) :=
  rows.foldl (fun labs r =>
    modifyLab r.lab (defaultLab r.lab (logoOr logoEnv r.lab_logo r.lab)) bumpRisers labs) labs

/-- The new-star counting pass of the scorecard. -/
def starPass (logoEnv : String → Option String) (stars : List StarRow)
    (labs : List (String × LabEntry)) : List (String × LabEntry) :=
  stars.foldl (fun labs s =>
    modifyLab s.row.lab (defaultLab s.row.lab (logoOr logoEnv s.row.lab_logo s.row.lab))
      bumpStars labs) labs

/-- The final pass of `get_company_scorecard`: derive market share,
category-leader flag, momentum score and investment score for one entry. -/
def mkScoreEntry (total : ℚ) (leaders : List String) (e : LabEntry) : ScoreEntry :=
  let pct : ℚ := if total > 0 then e.market_volume / total * 100 else 0
  let momentum : ℕ := e.fast_risers * 3 + e.new_stars * 5
  { toLabEntry := e
    market_share_pct := pct
    category_leader := leaders.contains e.lab
    momentum_score := momentum + e.top30_general + e.top30_coding
    investment_score := round1
      ((momentum : ℚ) * 2 + pct * 1.5 +
        (if leaders.contains e.lab then (10 : ℚ) else 0) +
        ((e.top10_general + e.top10_coding : ℕ) : ℚ) * 3) }

/-- `get_company_scorecard(analysis_result, window)`. -/
def get_company_scorecard (logoEnv : String → Option String) (ar : AnalysisResult)
    (w : Window) : List ScoreEntry :=
  let total := totalVolume ar
  let leaders := leaderLabs ar
  let labs0 := scoreRowsGo logoEnv (taggedRows ar) [] []
  let labs1 := riserPass logoEnv
    (ar.fast_risers w Cat.general ++ ar.fast_risers w Cat.coding) labs0
  let labs2 := starPass logoEnv (ar.new_stars w) labs1
  let entries := (labs2.map Prod.snd).map (mkScoreEntry total leaders)
  let kept := entries.filter (fun e => e.best_rank.isSome)
  sortByKey (fun e => -e.investment_score) kept

/-! ## Model picks (`get_model_picks`) -/

/-- Python `max(lst, key=f)` as an `Option` (the first maximum wins a tie),
`none` on the empty list. -/
def maxByKey (f : α → ℚ) : List α → Option α :=
  List.foldl (fun acc x =>
    match acc with
    | none => some x
    | some c => if f x > f c then some x else some c) none

/-- Deduplicate rows by `model_id`, keeping first occurrences. -/
def dedupRows (rows : List MergedRow) : List MergedRow :=
  go rows []
where
  go : List MergedRow → List String → List MergedRow
    | [], _ => []
    | r :: t, seen =>
      if seen.contains r.model_id then go t seen
      else r :: go t (r.model_id :: seen)

/-- `m["model_id"] != exclude` (`exclude` possibly `None`). -/
def exOk (ex : Option String) (m : MergedRow) : Bool :=
  match ex with
  | none => true
  | some e => m.model_id != e

/-- `best_by_elo`: highest quality score among rows with a truthy score,
minus the excluded id. -/
def bestByElo (lst : List MergedRow) (ex : Option String) : Option MergedRow :=
  maxByKey (fun m => m.elo)
    (lst.filter (fun m => decide (m.elo ≠ 0) && exOk ex m))

/-- The eligibility filter of `best_by_value`: truthy score, truthy
`price_input`, not excluded. -/
def validValue (lst : List MergedRow) (ex : Option String) : List MergedRow :=
  lst.filter (fun m =>
    decide (m.elo ≠ 0) && decide (m.price_input.getD 0 ≠ 0) && exOk ex m)

/-- `max` of a value list (dummy `0` on `[]`, never reached by callers). -/
def listMaxQ : List ℚ → ℚ
  | [] => 0
  | x :: xs => xs.foldl max x

/-- `min` of a value list (dummy `0` on `[]`, never reached by callers). -/
def listMinQ : List ℚ → ℚ
  | [] => 0
  | x :: xs => xs.foldl min x

/-- `best_by_value`'s quality normalization: min-max, full credit `1.0` in
the degenerate case. -/
def eloNormF (minE maxE e : ℚ) : ℚ :=
  if maxE ≠ minE then (e - minE) / (maxE - minE) else 1

/-- `best_by_value`'s (inverse) price normalization: min-max, full credit
`1.0` in the degenerate case. -/
def priceNormF (minP maxP p : ℚ) : ℚ :=
  if maxP ≠ minP then (maxP - p) / (maxP - minP) else 1

/-- `best_by_value`'s usage-volume normalization: min-max, but `0.0` — not
full credit — in the degenerate case. -/
def volNormF (minV maxV v : ℚ) : ℚ :=
  if maxV ≠ minV then (v - minV) / (maxV - minV) else 0

/-- The weighted blend `_score` of `best_by_value`. -/
def valueScore (minE maxE minP maxP minV maxV : ℚ) (m : MergedRow) : ℚ :=
  0.5 * eloNormF minE maxE m.elo +
    0.3 * priceNormF minP maxP (m.price_input.getD 0) +
    0.2 * volNormF minV maxV (m.or_volume.getD 0)

/-- `best_by_value` on an already-computed candidate pool. -/
def bestByValueValid (valid : List MergedRow) : Option MergedRow :=
  match valid with
  | [] => none
  | _ :: _ =>
    let maxE := listMaxQ (valid.map (fun m => m.elo))
    let minE := listMinQ (valid.map (fun m => m.elo))
    let maxP := listMaxQ (valid.map (fun m => m.price_input.getD 0))
    let minP := listMinQ (valid.map (fun m => m.price_input.getD 0))
    let maxV := listMaxQ (valid.map (fun m => m.or_volume.getD 0))
    let minV := listMinQ (valid.map (fun m => m.or_volume.getD 0))
    maxByKey (valueScore minE maxE minP maxP minV maxV) valid

/-- `best_by_value(lst, exclude)`. -/
def bestByValue (lst : List MergedRow) (ex : Option String) : Option MergedRow :=
  bestByValueValid (validValue lst ex)

/-- `best_coding(lst, exclude)`: highest score among deduplicated coding
rows whose id appears in `lst`, minus the excluded id. -/
def bestCoding (codingRows : List MergedRow) (lst : List MergedRow)
    (ex : Option String) : Option MergedRow :=
  let codingM := dedupRows codingRows
  let ids := lst.map (fun x => x.model_id)
  let filtered := codingM.filter (fun m => ids.contains m.model_id && exOk ex m)
  maxByKey (fun m => m.elo) (filtered.filter (fun m => decide (m.elo ≠ 0)))

/-- `best_long_context(lst, min_ctx, exclude)`. -/
def bestLongContext (lst : List MergedRow) (minCtx : ℚ) (ex : Option String) :
    Option MergedRow :=
  maxByKey (fun m => m.elo)
    (lst.filter (fun m =>
      decide (m.elo ≠ 0) && decide (m.context_length.getD 0 ≥ minCtx) && exOk ex m))

/-- `most_adopted(lst, top_n, exclude)`: among the top-`top_n` by quality
score, the row of highest usage volume; note that the exclusion is applied
only after the truncation. -/
def mostAdopted (lst : List MergedRow) (topN : ℕ) (ex : Option String) :
    Option MergedRow :=
  let validElo := sortByKey (fun m => -m.elo) (lst.filter (fun m => decide (m.elo ≠ 0)))
  let top := validElo.take topN
  let withVol := top.filter (fun m => decide (m.or_volume.getD 0 ≠ 0) && exOk ex m)
  maxByKey (fun m => m.or_volume.getD 0) withVol

/-- The result of `get_model_picks`: winner and runner-up per scenario. -/
structure Picks where
  best_cloud : Option MergedRow
  best_cloud_ru : Option MergedRow
  best_oss : Option MergedRow
  best_oss_ru : Option MergedRow
  best_value_cloud : Option MergedRow
  best_value_cloud_ru : Option MergedRow
  best_value_oss : Option MergedRow
  best_value_oss_ru : Option MergedRow
  best_coding_cloud : Option MergedRow
  best_coding_cloud_ru : Option MergedRow
  best_coding_oss : Option MergedRow
  best_coding_oss_ru : Option MergedRow
  best_long_ctx_cloud : Option MergedRow
  best_long_ctx_cloud_ru : Option MergedRow
  best_long_ctx_oss : Option MergedRow
  best_long_ctx_oss_ru : Option MergedRow
  most_adopted_cloud : Option MergedRow
  most_adopted_cloud_ru : Option MergedRow
  most_adopted_oss : Option MergedRow
  most_adopted_oss_ru : Option MergedRow
deriving DecidableEq, Repr

/-- `x["model_id"] if x else None`. -/
def idOf : Option MergedRow → Option String :=
  Option.map (fun m => m.model_id)

/-- The deduplicated cross-category pool of `get_model_picks`. -/
def allModelsOf (ar : AnalysisResult) : List MergedRow :=
  dedupRows (ar.rankings_general ++ ar.rankings_coding)

/-- The proprietary partition. -/
def cloudOf (ar : AnalysisResult) : List MergedRow :=
  (allModelsOf ar).filter (fun m => !m.is_open_source)

/-- The open-source partition. -/
def ossOf (ar : AnalysisResult) : List MergedRow :=
  (allModelsOf ar).filter (fun m => m.is_open_source)

/-- `get_model_picks(analysis_result)`. -/
def get_model_picks (ar : AnalysisResult) : Picks :=
  let cloud := cloudOf ar
  let oss := ossOf ar
  let bc := bestByElo cloud none
  let bo := bestByElo oss none
  let bvc := bestByValue cloud none
  let bvo := bestByValue oss none
  let bcc := bestCoding ar.rankings_coding cloud none
  let bco := bestCoding ar.rankings_coding oss none
  let blcc := bestLongContext cloud 128000 none
  let blco := bestLongContext oss 128000 none
  let mac := mostAdopted cloud 30 none
  let mao := mostAdopted oss 30 none
  { best_cloud := bc, best_cloud_ru := bestByElo cloud (idOf bc)
    best_oss := bo, best_oss_ru := bestByElo oss (idOf bo)
    best_value_cloud := bvc, best_value_cloud_ru := bestByValue cloud (idOf bvc)
    best_value_oss := bvo, best_value_oss_ru := bestByValue oss (idOf bvo)
    best_coding_cloud := bcc
    best_coding_cloud_ru := bestCoding ar.rankings_coding cloud (idOf bcc)
    best_coding_oss := bco
    best_coding_oss_ru := bestCoding ar.rankings_coding oss (idOf bco)
    best_long_ctx_cloud := blcc
    best_long_ctx_cloud_ru := bestLongContext cloud 128000 (idOf blcc)
    best_long_ctx_oss := blco
    best_long_ctx_oss_ru := bestLongContext oss 128000 (idOf blco)
    most_adopted_cloud := mac
    most_adopted_cloud_ru := mostAdopted cloud 30 (idOf mac)
    most_adopted_oss := mao
    most_adopted_oss_ru := mostAdopted oss 30 (idOf mao) }

/-! ## Derived accessors and measures used by the specification statements -/

/-- Riser list of a `CatResult` by window. -/
def CatResult.risersW (c : CatResult) : Window → List MergedRow
  | .w7 => c.risers7
  | .w30 => c.risers30

/-- Star list of a `CatResult` by window. -/
def CatResult.starsW (c : CatResult) : Window → List MergedRow
  | .w7 => c.stars7
  | .w30 => c.stars30

/-- Total market volume recorded in a lab table. -/
def labVolSum (labs : List (String × LabEntry)) : ℚ :=
  (labs.map (fun p => p.2.market_volume)).sum

/-- Sum of the market-share percentages of a scorecard. -/
def pctSum (l : List ScoreEntry) : ℚ :=
  (l.map (fun e => e.market_share_pct)).sum

/-- Remove a winner's identifier from a candidate pool (the spec's reading
of "re-running the same selection excluding the winner's identifier"). -/
def removeW (pool : List MergedRow) : Option MergedRow → List MergedRow
  | none => pool
  | some w => pool.filter (fun m => m.model_id != w.model_id)

/-! ## Concrete inputs used by witnesses and counterexamples -/

/-- Logo oracle of an external state where every lookup fails. -/
def env0 : String → Option String := fun _ => none

/-- Logo oracle of an external state where the Anthropic logo is cached. -/
def envB : String → Option String :=
  fun l => if l = "Anthropic" then some "/static/logos/anthropic.png" else none

/-- Empty marketplace catalogue. -/
def ordE : ORData := ⟨[], []⟩

/-- The end-to-end scenario input of the spec (§8): two current entries and
a 7-day baseline with swapped ranks. -/
def lmC7 : LmArena :=
  { current_general := [⟨1, "a/x", 1500, 0⟩, ⟨2, "b/y", 1490, 0⟩]
    current_coding := []
    prev7_general := [⟨3, "a/x", 0, 0⟩, ⟨1, "b/y", 0, 0⟩]
    prev7_coding := [], prev30_general := [], prev30_coding := []
    fetched_at := 0 }

/-- A snapshot producing a new star: the current leader is absent from the
(non-empty) baseline top-50. -/
def lmStar : LmArena :=
  { current_general := [⟨1, "new/one", 100, 0⟩]
    current_coding := []
    prev7_general := [⟨40, "old/x", 0, 0⟩]
    prev7_coding := []
    prev30_general := [⟨40, "old/x", 0, 0⟩]
    prev30_coding := []
    fetched_at := 0 }

/-- A snapshot whose single model is attributed to the Anthropic lab, so
that `analyze` consults the logo lookup for a non-"Unknown" name. -/
def lmC4 : LmArena :=
  { current_general := [⟨1, "anthropic/claude-3", 1000, 0⟩], current_coding := []
    prev7_general := [], prev7_coding := [], prev30_general := [], prev30_coding := []
    fetched_at := 0 }

/-- A merged row with all optional data absent. -/
def baseRow (id lab : String) (rank : Int) (elo : ℚ) : MergedRow :=
  { model_id := id, model_display := id, rank := rank, elo := elo, votes := 0,
    prev_rank := none, rank_delta := none, price_input := none, price_output := none,
    days_in_board := none, or_rank := none, or_volume := none, context_length := none,
    is_riser := false, is_new_star := false, lab := lab, lab_logo := none,
    is_open_source := false }

/-- Analysis result with one ranked model: its lab has a top-30 placement,
so the momentum score (1) differs from the raw momentum term (0). -/
def arC1 : AnalysisResult :=
  { rankings_general := [baseRow "solo" "TestLab" 1 100], rankings_coding := []
    fast_risers_7d_general := [], fast_risers_7d_coding := []
    fast_risers_30d_general := [], fast_risers_30d_coding := []
    new_stars_7d := [], new_stars_30d := [] }

/-- Analysis result with one ranked model carrying market volume 4. -/
def arC9 : AnalysisResult :=
  { rankings_general := [{ baseRow "solo" "TestLab" 1 100 with or_volume := some 4 }]
    rankings_coding := []
    fast_risers_7d_general := [], fast_risers_7d_coding := []
    fast_risers_30d_general := [], fast_risers_30d_coding := []
    new_stars_7d := [], new_stars_30d := [] }

/-- A best-value candidate pool of two rows agreeing on score, price and
usage volume (every scoring factor degenerate). -/
def poolC2 : List MergedRow :=
  [{ baseRow "p/a" "L" 1 10 with price_input := some 2, or_volume := some 7 },
   { baseRow "p/b" "L" 2 10 with price_input := some 2, or_volume := some 7 }]

/-- Model identifiers `m1`, ..., `m31` for the most-adopted counterexample. -/
def mkIdC3 (i : ℕ) : String := "m" ++ toString i

/-- Usage volumes: the quality-rank-31 model has by far the largest volume. -/
def volC3 (i : ℕ) : ℚ :=
  if i = 1 then 100 else if i = 2 then 50 else if i = 31 then 1000 else 1

/-- The `i`-th proprietary row: quality score `4000 - i`, volume `volC3 i`. -/
def rowC3 (i : ℕ) : MergedRow :=
  { baseRow (mkIdC3 i) "L" (i : Int) ((4000 : ℚ) - i) with or_volume := some (volC3 i) }

/-- Analysis result with 31 proprietary models; the winner of most-adopted
sits inside the quality top-30 while the highest-volume model sits at
quality rank 31. -/
def arC3 : AnalysisResult :=
  { rankings_general := (List.range 31).map (fun i => rowC3 (i + 1)), rankings_coding := []
    fast_risers_7d_general := [], fast_risers_7d_coding := []
    fast_risers_30d_general := [], fast_risers_30d_coding := []
    new_stars_7d := [], new_stars_30d := [] }

/-! ## Generic helper lemmas -/

theorem sortByKey_perm [LinearOrder β] (key : α → β) (l : List α) :
    List.Perm (sortByKey key l) l :=
  @List.perm_insertionSort α (fun a b => key a ≤ key b)
    (fun a b => inferInstanceAs (Decidable (key a ≤ key b))) l

theorem sortByKey_mem [LinearOrder β] (key : α → β) (l : List α) (x : α) :
    x ∈ sortByKey key l ↔ x ∈ l :=
  (sortByKey_perm key l).mem_iff

theorem sortByKey_sorted [LinearOrder β] (key : α → β) (l : List α) :
    List.Pairwise (fun a b => key a ≤ key b) (sortByKey key l) := by
  haveI : IsTotal α (fun a b => key a ≤ key b) := ⟨fun a b => le_total (key a) (key b)⟩
  haveI : IsTrans α (fun a b => key a ≤ key b) := ⟨fun _ _ _ h1 h2 => le_trans h1 h2⟩
  unfold sortByKey
  apply List.sorted_insertionSort

theorem filter_filter_eq (f g : α → Bool) (l : List α) :
    (l.filter g).filter f = l.filter (fun a => g a && f a) := by
  induction l with
  | nil => rfl
  | cons x t ih =>
    cases hg : g x <;> cases hf : f x <;>
      simp [List.filter_cons, hg, hf, ih]

theorem filter_ext (f g : α → Bool) (h : ∀ a, f a = g a) (l : List α) :
    l.filter f = l.filter g := by
  have : f = g := funext h
  rw [this]

theorem sum_filter_of_zero (f : α → ℚ) (p : α → Bool) (l : List α)
    (h : ∀ x ∈ l, p x = false → f x = 0) :
    ((l.filter p).map f).sum = (l.map f).sum := by
  induction l with
  | nil => rfl
  | cons x t ih =>
    have ht : ∀ y ∈ t, p y = false → f y = 0 := fun y hy => h y (List.mem_cons_of_mem _ hy)
    cases hp : p x
    · simp [List.filter_cons, hp, ih ht, h x (List.mem_cons_self x t) hp]
    · simp [List.filter_cons, hp, ih ht]

/-! ## Identifier matching: exactness short-circuits fuzziness (C8) -/

theorem findMatchGo_exact {α : Type} (key : String) (ktok : List String) :
    ∀ (l : List (String × α)) (best : Option α) (bs : ℚ),
      (∃ kv ∈ l, norm kv.1 = key) →
      ∃ kv ∈ l, norm kv.1 = key ∧ findMatchGo key ktok best bs l = some kv.2 := by
  intro l
  induction l with
  | nil => intro best bs h; obtain ⟨kv, hkv, _⟩ := h; cases hkv
  | cons p rest ih =>
    intro best bs h
    obtain ⟨k, v⟩ := p
    by_cases hk : norm k = key
    · exact ⟨(k, v), List.mem_cons_self _ _, hk, by simp [findMatchGo, hk]⟩
    · have hrest : ∃ kv ∈ rest, norm kv.1 = key := by
        obtain ⟨kv, hkv, hn⟩ := h
        rcases List.mem_cons.1 hkv with rfl | hkv2
        · exact absurd hn hk
        · exact ⟨kv, hkv2, hn⟩
      simp only [findMatchGo, if_neg hk]
      by_cases hs : tokenOverlap ktok (tokens k) > bs
      · rw [if_pos hs]
        obtain ⟨kv, hkv, hn, he⟩ := ih (some v) (tokenOverlap ktok (tokens k)) hrest
        exact ⟨kv, List.mem_cons_of_mem _ hkv, hn, he⟩
      · rw [if_neg hs]
        obtain ⟨kv, hkv, hn, he⟩ := ih best bs hrest
        exact ⟨kv, List.mem_cons_of_mem _ hkv, hn, he⟩

theorem findMatchGo_fuzzy {α : Type} (key : String) (ktok : List String) :
    ∀ (l : List (String × α)) (best : Option α) (bs : ℚ) (v : α),
      (∀ kv ∈ l, norm kv.1 ≠ key) →
      findMatchGo key ktok best bs l = some v →
      (∃ kv ∈ l, kv.2 = v ∧ tokenOverlap ktok (tokens kv.1) ≥ 1/2) ∨
        (best = some v ∧ bs ≥ 1/2) := by
  intro l
  induction l with
  | nil =>
    intro best bs v _ hgo
    simp only [findMatchGo] at hgo
    by_cases hb : bs ≥ 1/2
    · rw [if_pos hb] at hgo; exact Or.inr ⟨hgo, hb⟩
    · rw [if_neg hb] at hgo; cases hgo
  | cons p rest ih =>
    intro best bs v hne hgo
    obtain ⟨k, w⟩ := p
    have hk : norm k ≠ key := hne (k, w) (List.mem_cons_self _ _)
    have hrest : ∀ kv ∈ rest, norm kv.1 ≠ key := fun kv hkv => hne kv (List.mem_cons_of_mem _ hkv)
    simp only [findMatchGo, if_neg hk] at hgo
    by_cases hs : tokenOverlap ktok (tokens k) > bs
    · rw [if_pos hs] at hgo
      rcases ih (some w) (tokenOverlap ktok (tokens k)) v hrest hgo with ⟨kv, hkv, hv, ho⟩ | ⟨hb, ho⟩
      · exact Or.inl ⟨kv, List.mem_cons_of_mem _ hkv, hv, ho⟩
      · exact Or.inl ⟨(k, w), List.mem_cons_self _ _, Option.some.inj hb, ho⟩
    · rw [if_neg hs] at hgo
      rcases ih best bs v hrest hgo with ⟨kv, hkv, hv, ho⟩ | hb
      · exact Or.inl ⟨kv, List.mem_cons_of_mem _ hkv, hv, ho⟩
      · exact Or.inr hb

theorem findMatchGo_below {α : Type} (key : String) (ktok : List String) :
    ∀ (l : List (String × α)) (best : Option α) (bs : ℚ),
      (∀ kv ∈ l, norm kv.1 ≠ key) →
      (∀ kv ∈ l, tokenOverlap ktok (tokens kv.1) < 1/2) →
      bs < 1/2 →
      findMatchGo key ktok best bs l = none := by
  intro l
  induction l with
  | nil =>
    intro best bs _ _ hb
    simp only [findMatchGo, if_neg (not_le.2 hb)]
  | cons p rest ih =>
    intro best bs hne hlow hb
    obtain ⟨k, w⟩ := p
    have hk : norm k ≠ key := hne (k, w) (List.mem_cons_self _ _)
    simp only [findMatchGo, if_neg hk]
    by_cases hs : tokenOverlap ktok (tokens k) > bs
    · rw [if_pos hs]
      exact ih _ _ (fun kv hkv => hne kv (List.mem_cons_of_mem _ hkv))
        (fun kv hkv => hlow kv (List.mem_cons_of_mem _ hkv))
        (hlow (k, w) (List.mem_cons_self _ _))
    · rw [if_neg hs]
      exact ih _ _ (fun kv hkv => hne kv (List.mem_cons_of_mem _ hkv))
        (fun kv hkv => hlow kv (List.mem_cons_of_mem _ hkv)) hb

/-- C8: identifier matching returns a catalogue value via exact normalized
equality iff the normalized target equals some normalized catalogue key (an
exact hit is returned no matter what the token overlaps are); without an
exact hit, the fuzzy fallback yields a value only with Jaccard overlap at
least 0.5 and yields nothing when every overlap is below 0.5. -/
theorem findMatch_exact_short_circuit {α : Type} (mid : String)
    (catalogue : List (String × α)) :
    ((∃ kv ∈ catalogue, norm kv.1 = norm mid) →
      ∃ kv ∈ catalogue, norm kv.1 = norm mid ∧ findMatch mid catalogue = some kv.2) ∧
    ((∀ kv ∈ catalogue, norm kv.1 ≠ norm mid) →
      ∀ v, findMatch mid catalogue = some v →
        ∃ kv ∈ catalogue, kv.2 = v ∧ tokenOverlap (tokens mid) (tokens kv.1) ≥ 1/2) ∧
    ((∀ kv ∈ catalogue, norm kv.1 ≠ norm mid) →
      (∀ kv ∈ catalogue, tokenOverlap (tokens mid) (tokens kv.1) < 1/2) →
      findMatch mid catalogue = none) := by
  refine ⟨?_, ?_, ?_⟩
  · intro h
    exact findMatchGo_exact (norm mid) (tokens mid) catalogue none 0 h
  · intro hne v hv
    rcases findMatchGo_fuzzy (norm mid) (tokens mid) catalogue none 0 v hne hv with h | ⟨h, _⟩
    · exact h
    · cases h
  · intro hne hlow
    exact findMatchGo_below (norm mid) (tokens mid) catalogue none 0 hne hlow (by norm_num)

/-- Witness for C8 at concrete inputs: an exact normalized hit
(`openai/gpt-4` vs `OpenAI/GPT_4`), a fuzzy-only hit with overlap 2/3, and
a fuzzy miss with overlap 1/3. -/
theorem findMatch_exact_short_circuit_witness :
    (∃ kv ∈ [("OpenAI/GPT_4", (1 : ℤ))], norm kv.1 = norm "openai/gpt-4" ∧
      findMatch "openai/gpt-4" [("OpenAI/GPT_4", (1 : ℤ))] = some kv.2) ∧
    (∃ kv ∈ [("b/alpha-beta-x", (7 : ℤ))], kv.2 = 7 ∧
      tokenOverlap (tokens "a/alpha-beta") (tokens kv.1) ≥ 1/2) ∧
    findMatch "a/alpha-beta" [("b/alpha-gamma", (3 : ℤ))] = none :=
  ⟨(findMatch_exact_short_circuit "openai/gpt-4" _).1 (by decide),
   (findMatch_exact_short_circuit "a/alpha-beta" _).2.1 (by decide) 7
     (by with_unfolding_all decide),
   (findMatch_exact_short_circuit "a/alpha-beta" _).2.2 (by decide)
     (by with_unfolding_all decide)⟩

/-! ## Structure of `analyze` (equations for its per-category states) -/

theorem analyze_risers7 (lm : LmArena) (ord : ORData) (now : Int)
    (env : String → Option String) (c : Cat) :
    (analyze lm ord now env).fast_risers Window.w7 c =
      risersOf (lm.prevW Window.w7 c)
        (merged0Of now env ord.pricing ord.usage_ranks (lm.prevW Window.w7 c) (lm.cur c)) := by
  cases c <;> rfl

theorem analyze_risers30 (lm : LmArena) (ord : ORData) (now : Int)
    (env : String → Option String) (c : Cat) :
    (analyze lm ord now env).fast_risers Window.w30 c =
      risersOf (lm.prevW Window.w30 c)
        (merged1Of now env ord.pricing ord.usage_ranks (lm.prevW Window.w7 c) (lm.cur c)) := by
  cases c <;> rfl

theorem setStar_is_riser (t50 : List String) (r : MergedRow) :
    (setStar t50 r).is_riser = r.is_riser := by
  unfold setStar; split <;> rfl

theorem setStar_fields (t50 : List String) (r : MergedRow) :
    (setStar t50 r).model_id = r.model_id ∧ (setStar t50 r).rank = r.rank ∧
      (setStar t50 r).rank_delta = r.rank_delta := by
  unfold setStar; split <;> exact ⟨rfl, rfl, rfl⟩

theorem setRiser_fields (ids : List String) (r : MergedRow) :
    (setRiser ids r).model_id = r.model_id ∧ (setRiser ids r).rank = r.rank ∧
      (setRiser ids r).rank_delta = r.rank_delta := by
  unfold setRiser; split <;> exact ⟨rfl, rfl, rfl⟩

/-! ## Fast risers (C5, C10) -/

theorem risersOf_mem (prevRows : List RankRow) (merged : List MergedRow) (e : MergedRow)
    (he : e ∈ risersOf prevRows merged) :
    ∃ r ∈ merged, ∃ p, prevLookup prevRows r.model_id = some p ∧ 0 < p - r.rank ∧
      e = { r with rank_delta := some (p - r.rank) } := by
  simp only [risersOf] at he
  have h1 := (List.take_sublist 10 _).subset he
  rw [sortByKey_mem] at h1
  rcases List.mem_filterMap.1 h1 with ⟨r, hr, hfr⟩
  split at hfr
  next p hp =>
    split at hfr
    next hpos => exact ⟨r, hr, p, hp, hpos, (Option.some.inj hfr).symm⟩
    next => cases hfr
  next => cases hfr

theorem risersOf_spec (prevRows : List RankRow) (merged : List MergedRow) :
    (∀ e ∈ risersOf prevRows merged,
        ∃ p, prevLookup prevRows e.model_id = some p ∧ 0 < p - e.rank ∧
          e.rank_delta = some (p - e.rank)) ∧
    List.Pairwise (fun a b => deltaOf b ≤ deltaOf a) (risersOf prevRows merged) ∧
    (risersOf prevRows merged).length ≤ 10 := by
  refine ⟨?_, ?_, ?_⟩
  · intro e he
    obtain ⟨r, _, p, hp, hpos, rfl⟩ := risersOf_mem _ _ _ he
    exact ⟨p, hp, hpos, rfl⟩
  · have hs := sortByKey_sorted (fun x : MergedRow => -deltaOf x)
      (merged.filterMap (fun r =>
        match prevLookup prevRows r.model_id with
        | some p => if p - r.rank > 0 then some { r with rank_delta := some (p - r.rank) } else none
        | none => none))
    have ht := hs.sublist (List.take_sublist 10 _)
    exact ht.imp (fun h => neg_le_neg_iff.mp h)
  · simp only [risersOf]
    rw [List.length_take]
    exact min_le_left _ _

/-- C5: every fast-riser list of `analyze` contains only entities present in
that window's baseline with a strictly positive rank delta (baseline rank
minus current rank, recorded in the entry), is sorted descending by that
delta, and has at most 10 elements. -/
theorem analyze_fast_risers_spec (lm : LmArena) (ord : ORData) (now : Int)
    (env : String → Option String) (w : Window) (c : Cat) :
    (∀ e ∈ (analyze lm ord now env).fast_risers w c,
        ∃ p, prevLookup (lm.prevW w c) e.model_id = some p ∧ 0 < p - e.rank ∧
          e.rank_delta = some (p - e.rank)) ∧
    List.Pairwise (fun a b => deltaOf b ≤ deltaOf a)
      ((analyze lm ord now env).fast_risers w c) ∧
    ((analyze lm ord now env).fast_risers w c).length ≤ 10 := by
  cases w
  · rw [analyze_risers7]; exact risersOf_spec _ _
  · rw [analyze_risers30]; exact risersOf_spec _ _

/-- Witness for C5 at a concrete input: the single 7d riser of `lmC7`. -/
theorem analyze_fast_risers_spec_witness :
    ∃ p, prevLookup (lmC7.prevW Window.w7 Cat.general)
        (((analyze lmC7 ordE 0 env0).fast_risers Window.w7 Cat.general).get
          ⟨0, by with_unfolding_all decide⟩).model_id = some p ∧
      0 < p - (((analyze lmC7 ordE 0 env0).fast_risers Window.w7 Cat.general).get
          ⟨0, by with_unfolding_all decide⟩).rank ∧
      (((analyze lmC7 ordE 0 env0).fast_risers Window.w7 Cat.general).get
          ⟨0, by with_unfolding_all decide⟩).rank_delta =
        some (p - (((analyze lmC7 ordE 0 env0).fast_risers Window.w7 Cat.general).get
          ⟨0, by with_unfolding_all decide⟩).rank) :=
  (analyze_fast_risers_spec lmC7 ordE 0 env0 Window.w7 Cat.general).1 _
    (List.get_mem _ _ _)

theorem merged0Of_is_riser (now : Int) (env : String → Option String)
    (pricing : List (String × PriceInfo)) (usage : List (String × UsageInfo))
    (prev7rows curRows : List RankRow) :
    ∀ r ∈ merged0Of now env pricing usage prev7rows curRows, r.is_riser = false := by
  intro r hr
  rcases List.mem_map.1 hr with ⟨row, _, rfl⟩
  rfl

theorem merged1Of_is_riser (now : Int) (env : String → Option String)
    (pricing : List (String × PriceInfo)) (usage : List (String × UsageInfo))
    (prev7rows curRows : List RankRow) :
    ∀ r ∈ merged1Of now env pricing usage prev7rows curRows, r.is_riser = false := by
  intro r hr
  rcases List.mem_map.1 hr with ⟨r0, hr0, rfl⟩
  rw [setStar_is_riser]
  exact merged0Of_is_riser now env pricing usage prev7rows curRows r0 hr0

theorem risersOf_is_riser (prevRows : List RankRow) (merged : List MergedRow)
    (h : ∀ r ∈ merged, r.is_riser = false) :
    ∀ e ∈ risersOf prevRows merged, e.is_riser = false := by
  intro e he
  obtain ⟨r, hr, p, _, _, rfl⟩ := risersOf_mem _ _ _ he
  exact h r hr

/-- C10: every entry of every fast-riser list returned by `analyze` has
`is_riser = False` — the riser entries are copies made before the marking
pass, which rewrites only the rows kept in `rankings`. -/
theorem analyze_fast_risers_flag_unset (lm : LmArena) (ord : ORData) (now : Int)
    (env : String → Option String) (w : Window) (c : Cat) :
    ∀ e ∈ (analyze lm ord now env).fast_risers w c, e.is_riser = false := by
  cases w
  · rw [analyze_risers7]
    exact risersOf_is_riser _ _ (merged0Of_is_riser _ _ _ _ _ _)
  · rw [analyze_risers30]
    exact risersOf_is_riser _ _ (merged1Of_is_riser _ _ _ _ _ _)

/-- Witness for C10 at a concrete input: the single riser entry of `lmC7`
(whose `rankings` twin has `is_riser = True`) still carries `False`. -/
theorem analyze_fast_risers_flag_unset_witness :
    (((analyze lmC7 ordE 0 env0).fast_risers Window.w7 Cat.general).get
        ⟨0, by with_unfolding_all decide⟩).is_riser = false :=
  analyze_fast_risers_flag_unset lmC7 ordE 0 env0 Window.w7 Cat.general _
    (List.get_mem _ _ _)

/-! ## Merged-row rank deltas (C7) -/

theorem analyzeCat_final_delta (now : Int) (env : String → Option String)
    (pricing : List (String × PriceInfo)) (usage : List (String × UsageInfo))
    (p7 p30 cur : List RankRow) :
    ∀ r ∈ (analyzeCat now env pricing usage p7 p30 cur).final,
      r.rank_delta = (prevLookup p7 r.model_id).map (fun p => p - r.rank) := by
  intro r hr
  simp only [analyzeCat] at hr
  rcases List.mem_map.1 hr with ⟨r1, hr1, rfl⟩
  rcases List.mem_map.1 hr1 with ⟨r0, hr0, rfl⟩
  rcases List.mem_map.1 hr0 with ⟨row, _, rfl⟩
  obtain ⟨hid1, hrank1, hdelta1⟩ := setRiser_fields
    ((risersOf p7 (cur.map (buildRow now env pricing usage p7))).map (fun r => r.model_id))
    (setStar (top50Ids p7) (buildRow now env pricing usage p7 row))
  obtain ⟨hid0, hrank0, hdelta0⟩ := setStar_fields (top50Ids p7)
    (buildRow now env pricing usage p7 row)
  rw [hdelta1, hdelta0, hid1, hid0, hrank1, hrank0]
  rfl

/-- C7: in every merged row built by `analyze`, `rank_delta` is the 7-day
baseline rank minus the current rank when the identifier occurs in the
7-day baseline and null otherwise; on the end-to-end scenario of the spec,
`a/x` gets delta 2 and is a fast riser while `b/y` gets delta -1 and is
not. -/
theorem analyze_rank_delta_spec :
    (∀ (lm : LmArena) (ord : ORData) (now : Int) (env : String → Option String) (c : Cat),
        ∀ r ∈ (analyze lm ord now env).rankings c,
          r.rank_delta = (prevLookup (lm.prevW Window.w7 c) r.model_id).map
            (fun p => p - r.rank)) ∧
    ((analyze lmC7 ordE 0 env0).rankings Cat.general).map
        (fun r => (r.model_id, r.rank_delta, r.is_riser)) =
      [("a/x", some 2, true), ("b/y", some (-1), false)] ∧
    ((analyze lmC7 ordE 0 env0).fast_risers Window.w7 Cat.general).map
        (fun r => r.model_id) = ["a/x"] := by
  refine ⟨?_, by with_unfolding_all decide, by with_unfolding_all decide⟩
  intro lm ord now env c r hr
  cases c
  · exact analyzeCat_final_delta now env ord.pricing ord.usage_ranks
      lm.prev7_general lm.prev30_general lm.current_general r hr
  · exact analyzeCat_final_delta now env ord.pricing ord.usage_ranks
      lm.prev7_coding lm.prev30_coding lm.current_coding r hr

/-- Witness for C7's universally quantified part at a concrete input. -/
theorem analyze_rank_delta_spec_witness :
    (((analyze lmC7 ordE 0 env0).rankings Cat.general).get
        ⟨0, by with_unfolding_all decide⟩).rank_delta =
      (prevLookup (lmC7.prevW Window.w7 Cat.general)
          (((analyze lmC7 ordE 0 env0).rankings Cat.general).get
            ⟨0, by with_unfolding_all decide⟩).model_id).map
        (fun p => p - (((analyze lmC7 ordE 0 env0).rankings Cat.general).get
            ⟨0, by with_unfolding_all decide⟩).rank) :=
  analyze_rank_delta_spec.1 lmC7 ordE 0 env0 Cat.general _ (List.get_mem _ _ _)

/-! ## New stars (C6) -/

theorem newStarCond_iff (t50 : List String) (r : MergedRow) :
    newStarCond t50 r = true ↔ r.rank ≤ 30 ∧ r.model_id ∉ t50 ∧ t50 ≠ [] := by
  simp [newStarCond, List.isEmpty_iff, and_assoc]

theorem newStarCond_setRiser (t50 ids : List String) (r : MergedRow) :
    newStarCond t50 (setRiser ids r) = newStarCond t50 r := by
  unfold setRiser; split <;> rfl

theorem analyzeCat_stars_mem (now : Int) (env : String → Option String)
    (pricing : List (String × PriceInfo)) (usage : List (String × UsageInfo))
    (p7 p30 cur : List RankRow) (w : Window) :
    ∀ s ∈ (analyzeCat now env pricing usage p7 p30 cur).starsW w,
      newStarCond (top50Ids (match w with | .w7 => p7 | .w30 => p30)) s = true := by
  intro s hs
  cases w <;> exact (List.mem_filter.1 hs).2

theorem analyzeCat_stars_complete (now : Int) (env : String → Option String)
    (pricing : List (String × PriceInfo)) (usage : List (String × UsageInfo))
    (p7 p30 cur : List RankRow) (w : Window) :
    ∀ r ∈ (analyzeCat now env pricing usage p7 p30 cur).final,
      newStarCond (top50Ids (match w with | .w7 => p7 | .w30 => p30)) r = true →
      ∃ s ∈ (analyzeCat now env pricing usage p7 p30 cur).starsW w,
        s.model_id = r.model_id ∧ s.rank = r.rank := by
  intro r hr hcond
  simp only [analyzeCat] at hr
  rcases List.mem_map.1 hr with ⟨r1, hr1, rfl⟩
  obtain ⟨hid, hrank, _⟩ := setRiser_fields
    ((risersOf p7 (cur.map (buildRow now env pricing usage p7))).map (fun r => r.model_id)) r1
  rw [newStarCond_setRiser] at hcond
  refine ⟨r1, ?_, hid.symm, hrank.symm⟩
  cases w <;> exact List.mem_filter.2 ⟨hr1, hcond⟩

theorem star_append_mem (gl cl : List MergedRow) (s : StarRow)
    (hs : s ∈ gl.map (fun r => StarRow.mk r Cat.general) ++
      cl.map (fun r => StarRow.mk r Cat.coding)) :
    (s.category = Cat.general ∧ s.row ∈ gl) ∨ (s.category = Cat.coding ∧ s.row ∈ cl) := by
  rcases List.mem_append.1 hs with h | h <;> rcases List.mem_map.1 h with ⟨r, hr, rfl⟩
  · exact Or.inl ⟨rfl, hr⟩
  · exact Or.inr ⟨rfl, hr⟩

theorem analyze_new_stars_eq (lm : LmArena) (ord : ORData) (now : Int)
    (env : String → Option String) (w : Window) :
    (analyze lm ord now env).new_stars w =
      sortByKey (fun s => s.row.rank)
        (((catG lm ord now env).starsW w).map (fun r => StarRow.mk r Cat.general) ++
          ((catC lm ord now env).starsW w).map (fun r => StarRow.mk r Cat.coding)) := by
  cases w <;> rfl

/-- C6: an entity appears in the new-stars output for a window and category
iff its current rank is at most 30, its identifier is absent from the
baseline top-50 id set of that window and category, and that top-50 set is
non-empty; in particular an empty baseline top-50 set flags nothing. -/
theorem analyze_new_stars_spec (lm : LmArena) (ord : ORData) (now : Int)
    (env : String → Option String) (w : Window) (c : Cat) :
    (∀ s ∈ (analyze lm ord now env).new_stars w, s.category = c →
        s.row.rank ≤ 30 ∧ s.row.model_id ∉ top50Ids (lm.prevW w c) ∧
          top50Ids (lm.prevW w c) ≠ []) ∧
    (∀ r ∈ (analyze lm ord now env).rankings c,
        r.rank ≤ 30 → r.model_id ∉ top50Ids (lm.prevW w c) → top50Ids (lm.prevW w c) ≠ [] →
        ∃ s ∈ (analyze lm ord now env).new_stars w, s.category = c ∧
          s.row.model_id = r.model_id ∧ s.row.rank = r.rank) := by
  constructor
  · intro s hs hc
    rw [analyze_new_stars_eq, sortByKey_mem] at hs
    rcases star_append_mem _ _ _ hs with ⟨hcat, hrow⟩ | ⟨hcat, hrow⟩
    · rw [hcat] at hc
      subst hc
      have := analyzeCat_stars_mem now env ord.pricing ord.usage_ranks
        lm.prev7_general lm.prev30_general lm.current_general w s.row hrow
      cases w <;> exact (newStarCond_iff _ _).1 this
    · rw [hcat] at hc
      subst hc
      have := analyzeCat_stars_mem now env ord.pricing ord.usage_ranks
        lm.prev7_coding lm.prev30_coding lm.current_coding w s.row hrow
      cases w <;> exact (newStarCond_iff _ _).1 this
  · intro r hr h30 habs hne
    cases c
    · obtain ⟨s, hsmem, hid, hrank⟩ := analyzeCat_stars_complete now env ord.pricing
        ord.usage_ranks lm.prev7_general lm.prev30_general lm.current_general w r hr
        (by cases w <;> exact (newStarCond_iff _ _).2 ⟨h30, habs, hne⟩)
      refine ⟨StarRow.mk s Cat.general, ?_, rfl, hid, hrank⟩
      rw [analyze_new_stars_eq, sortByKey_mem]
      exact List.mem_append_left _ (List.mem_map_of_mem _ hsmem)
    · obtain ⟨s, hsmem, hid, hrank⟩ := analyzeCat_stars_complete now env ord.pricing
        ord.usage_ranks lm.prev7_coding lm.prev30_coding lm.current_coding w r hr
        (by cases w <;> exact (newStarCond_iff _ _).2 ⟨h30, habs, hne⟩)
      refine ⟨StarRow.mk s Cat.coding, ?_, rfl, hid, hrank⟩
      rw [analyze_new_stars_eq, sortByKey_mem]
      exact List.mem_append_right _ (List.mem_map_of_mem _ hsmem)

/-- Witness for C6 at a concrete input: `lmStar`'s current leader is a new
star for both windows; both directions of the characterization fire. -/
theorem analyze_new_stars_spec_witness :
    (((analyze lmStar ordE 0 env0).new_stars Window.w7).get
          ⟨0, by with_unfolding_all decide⟩).row.rank ≤ 30 ∧
      (((analyze lmStar ordE 0 env0).new_stars Window.w7).get
          ⟨0, by with_unfolding_all decide⟩).row.model_id ∉
        top50Ids (lmStar.prevW Window.w7 Cat.general) ∧
      top50Ids (lmStar.prevW Window.w7 Cat.general) ≠ [] :=
  (analyze_new_stars_spec lmStar ordE 0 env0 Window.w7 Cat.general).1 _
    (List.get_mem _ _ _) (by with_unfolding_all decide)

/-! ## Hidden external dependency of `analyze` (C4) -/

set_option maxRecDepth 10000 in
/-- C4 (refuting the code, supporting the claim's intent): with identical
arguments — the same snapshots, the same catalogue and the same `now` clock
value — `analyze` returns different output under two behaviours of
`logos.get_logo` that both arise in practice (logo lookup failing vs. a
cached logo path), because `analyze` invokes the logo lookup inline.  The
lookup in `src/logos.py` shells out to an external CLI, performs HTTP
requests and writes `company_logos.json` plus image files, so the core is
not free of network I/O or persistent side effects as the claim states. -/
theorem analyze_depends_on_logo_state :
    analyze lmC4 ordE 0 env0 ≠ analyze lmC4 ordE 0 envB := by
  with_unfolding_all decide

/-! ## Scorecard structure (C1, C9) -/

theorem scorecard_mem (env : String → Option String) (ar : AnalysisResult) (w : Window)
    (e : ScoreEntry) (he : e ∈ get_company_scorecard env ar w) :
    ∃ b, e = mkScoreEntry (totalVolume ar) (leaderLabs ar) b := by
  simp only [get_company_scorecard] at he
  rw [sortByKey_mem] at he
  have h1 := (List.mem_filter.1 he).1
  rcases List.mem_map.1 h1 with ⟨b, _, rfl⟩
  exact ⟨b, rfl⟩

/-- C1 (amended): for every scorecard entry, `momentum_score` is
`fast_risers*3 + new_stars*5 + top30_general + top30_coding`, while
`investment_score` doubles only the raw momentum term
`fast_risers*3 + new_stars*5` — not the full `momentum_score` — before
adding `market_share_pct*1.5`, the category-leader bonus and the top-10
bonus, rounded to one decimal. -/
theorem scorecard_scores_formula (env : String → Option String) (ar : AnalysisResult)
    (w : Window) :
    ∀ e ∈ get_company_scorecard env ar w,
      e.momentum_score = e.fast_risers * 3 + e.new_stars * 5 +
        e.top30_general + e.top30_coding ∧
      e.investment_score = round1
        (((e.fast_risers * 3 + e.new_stars * 5 : ℕ) : ℚ) * 2 + e.market_share_pct * 1.5 +
          (if e.category_leader then (10 : ℚ) else 0) +
          ((e.top10_general + e.top10_coding : ℕ) : ℚ) * 3) := by
  intro e he
  obtain ⟨b, rfl⟩ := scorecard_mem env ar w e he
  exact ⟨rfl, rfl⟩

/-- Counterexample to C1 as stated: on `arC1` the single entry has
`momentum_score = 1` (one top-30 placement) but `investment_score = 13` —
the code doubles the raw momentum `0`, whereas the claim's formula
`momentum_score×2 + market_share_pct×1.5 + 10 + top10×3` yields `15`. -/
theorem scorecard_investment_cex :
    ((get_company_scorecard env0 arC1 Window.w7).map
        (fun e => (e.momentum_score, e.market_share_pct, e.category_leader,
          e.top10_general + e.top10_coding, e.investment_score))) =
      [(1, 0, true, 1, 13)] ∧
    round1 (((1 : ℕ) : ℚ) * 2 + 0 * 1.5 + 10 + ((1 : ℕ) : ℚ) * 3) = 15 ∧
    (13 : ℚ) ≠ 15 := by
  with_unfolding_all decide

/-- Witness for the amended C1 at a concrete input. -/
theorem scorecard_scores_formula_witness :
    ((get_company_scorecard env0 arC1 Window.w7).get
        ⟨0, by with_unfolding_all decide⟩).momentum_score =
      ((get_company_scorecard env0 arC1 Window.w7).get
        ⟨0, by with_unfolding_all decide⟩).fast_risers * 3 +
      ((get_company_scorecard env0 arC1 Window.w7).get
        ⟨0, by with_unfolding_all decide⟩).new_stars * 5 +
      ((get_company_scorecard env0 arC1 Window.w7).get
        ⟨0, by with_unfolding_all decide⟩).top30_general +
      ((get_company_scorecard env0 arC1 Window.w7).get
        ⟨0, by with_unfolding_all decide⟩).top30_coding ∧
    ((get_company_scorecard env0 arC1 Window.w7).get
        ⟨0, by with_unfolding_all decide⟩).investment_score = round1
      (((((get_company_scorecard env0 arC1 Window.w7).get
            ⟨0, by with_unfolding_all decide⟩).fast_risers * 3 +
          ((get_company_scorecard env0 arC1 Window.w7).get
            ⟨0, by with_unfolding_all decide⟩).new_stars * 5 : ℕ) : ℚ) * 2 +
        ((get_company_scorecard env0 arC1 Window.w7).get
          ⟨0, by with_unfolding_all decide⟩).market_share_pct * 1.5 +
        (if ((get_company_scorecard env0 arC1 Window.w7).get
            ⟨0, by with_unfolding_all decide⟩).category_leader then (10 : ℚ) else 0) +
        ((((get_company_scorecard env0 arC1 Window.w7).get
            ⟨0, by with_unfolding_all decide⟩).top10_general +
          ((get_company_scorecard env0 arC1 Window.w7).get
            ⟨0, by with_unfolding_all decide⟩).top10_coding : ℕ) : ℚ) * 3) :=
  scorecard_scores_formula env0 arC1 Window.w7 _ (List.get_mem _ _ _)

/-! ## Market-share accounting (C9) -/

theorem totalVolGo_acc (rows : List (Cat × MergedRow)) :
    ∀ (seen : List String) (a : ℚ), totalVolGo rows seen a = a + totalVolGo rows seen 0 := by
  induction rows with
  | nil => intro seen a; simp [totalVolGo]
  | cons q t ih =>
    intro seen a
    obtain ⟨c, r⟩ := q
    by_cases hm : r.model_id ∈ seen
    · have e1 : ∀ b : ℚ, totalVolGo ((c, r) :: t) seen b = totalVolGo t seen b := by
        intro b; simp [totalVolGo, hm]
      rw [e1, e1]
      exact ih seen a
    · have e1 : ∀ b : ℚ, totalVolGo ((c, r) :: t) seen b =
          totalVolGo t (r.model_id :: seen) (b + r.or_volume.getD 0) := by
        intro b; simp [totalVolGo, hm]
      rw [e1, e1,
        ih (r.model_id :: seen) (a + r.or_volume.getD 0),
        ih (r.model_id :: seen) (0 + r.or_volume.getD 0)]
      ring

theorem labVolSum_nil : labVolSum [] = 0 := rfl

theorem labVolSum_cons (p : String × LabEntry) (t : List (String × LabEntry)) :
    labVolSum (p :: t) = p.2.market_volume + labVolSum t := by
  simp [labVolSum]

theorem labVolSum_modifyLab (lab : String) (dflt : LabEntry) (f : LabEntry → LabEntry)
    (d : ℚ) (hd : dflt.market_volume = 0)
    (hf : ∀ e, (f e).market_volume = e.market_volume + d) :
    ∀ labs, labVolSum (modifyLab lab dflt f labs) = labVolSum labs + d := by
  intro labs
  induction labs with
  | nil =>
    simp only [modifyLab, labVolSum_cons, labVolSum_nil, hf dflt, hd]
    ring
  | cons p t ih =>
    obtain ⟨k, e⟩ := p
    by_cases hk : k = lab
    · simp only [modifyLab, if_pos hk, labVolSum_cons, hf e]
      ring
    · simp only [modifyLab, if_neg hk, labVolSum_cons, ih]
      ring

theorem updTop10_mv (cat : Cat) (r : MergedRow) (e : LabEntry) :
    (updTop10 cat r e).market_volume = e.market_volume := by
  unfold updTop10
  split
  · cases cat <;> rfl
  · rfl

theorem updTop30_mv (cat : Cat) (r : MergedRow) (e : LabEntry) :
    (updTop30 cat r e).market_volume = e.market_volume := by
  unfold updTop30
  split
  · cases cat <;> rfl
  · rfl

theorem updBest_mv (r : MergedRow) (e : LabEntry) :
    (updBest r e).market_volume = e.market_volume := by
  unfold updBest
  split
  · rfl
  · split <;> rfl

theorem updVol_mv (r : MergedRow) (isNew : Bool) (e : LabEntry) :
    (updVol r isNew e).market_volume =
      e.market_volume + (if isNew then r.or_volume.getD 0 else 0) := by
  unfold updVol
  cases isNew
  · simp
  · simp only [if_pos]
    split <;> simp

theorem rowUpd_mv (cat : Cat) (r : MergedRow) (isNew : Bool) (e : LabEntry) :
    (rowUpd cat r isNew e).market_volume =
      e.market_volume + (if isNew then r.or_volume.getD 0 else 0) := by
  unfold rowUpd
  rw [updVol_mv, updBest_mv, updTop30_mv, updTop10_mv]

theorem updTop10_best (cat : Cat) (r : MergedRow) (e : LabEntry) :
    (updTop10 cat r e).best_rank = e.best_rank := by
  unfold updTop10
  split
  · cases cat <;> rfl
  · rfl

theorem updTop30_best (cat : Cat) (r : MergedRow) (e : LabEntry) :
    (updTop30 cat r e).best_rank = e.best_rank := by
  unfold updTop30
  split
  · cases cat <;> rfl
  · rfl

theorem updVol_best (r : MergedRow) (isNew : Bool) (e : LabEntry) :
    (updVol r isNew e).best_rank = e.best_rank := by
  unfold updVol
  cases isNew
  · simp
  · simp only [if_pos]
    split <;> rfl

theorem updBest_isSome (r : MergedRow) (e : LabEntry) :
    (updBest r e).best_rank.isSome = true := by
  unfold updBest
  split
  · rfl
  next b hb =>
    split
    · rfl
    · rw [hb]
      rfl

theorem rowUpd_isSome (cat : Cat) (r : MergedRow) (isNew : Bool) (e : LabEntry) :
    (rowUpd cat r isNew e).best_rank.isSome = true := by
  unfold rowUpd
  rw [updVol_best]
  exact updBest_isSome r _

theorem modifyLab_pred (R : LabEntry → Prop) (lab : String) (dflt : LabEntry)
    (f : LabEntry → LabEntry) (hstep : ∀ e, R e → R (f e)) (hd : R (f dflt)) :
    ∀ labs, (∀ p ∈ labs, R p.2) → ∀ p ∈ modifyLab lab dflt f labs, R p.2 := by
  intro labs
  induction labs with
  | nil =>
    intro _ p hp
    simp only [modifyLab, List.mem_singleton] at hp
    rw [hp]
    exact hd
  | cons q t ih =>
    intro hR p hp
    obtain ⟨k, e⟩ := q
    by_cases hk : k = lab
    · simp only [modifyLab, if_pos hk] at hp
      rcases List.mem_cons.1 hp with rfl | hp2
      · exact hstep e (hR (k, e) (List.mem_cons_self _ _))
      · exact hR p (List.mem_cons_of_mem _ hp2)
    · simp only [modifyLab, if_neg hk] at hp
      rcases List.mem_cons.1 hp with rfl | hp2
      · exact hR (k, e) (List.mem_cons_self _ _)
      · exact ih (fun q hq => hR q (List.mem_cons_of_mem _ hq)) p hp2

theorem scoreRowsGo_labVolSum (env : String → Option String) :
    ∀ (rows : List (Cat × MergedRow)) (labs : List (String × LabEntry)) (seen : List String),
      labVolSum (scoreRowsGo env rows labs seen) = labVolSum labs + totalVolGo rows seen 0 := by
  intro rows
  induction rows with
  | nil => intro labs seen; simp [scoreRowsGo, totalVolGo]
  | cons q t ih =>
    intro labs seen
    obtain ⟨cat, r⟩ := q
    by_cases hm : r.model_id ∈ seen
    · have e1 : scoreRowsGo env ((cat, r) :: t) labs seen =
          scoreRowsGo env t (modifyLab r.lab (defaultLab r.lab (logoOr env r.lab_logo r.lab))
            (rowUpd cat r false) labs) seen := by
        simp [scoreRowsGo, hm]
      have e2 : totalVolGo ((cat, r) :: t) seen 0 = totalVolGo t seen 0 := by
        simp [totalVolGo, hm]
      rw [e1, e2, ih, labVolSum_modifyLab _ _ _ 0 rfl (fun e => by rw [rowUpd_mv]; simp)]
      ring
    · have e1 : scoreRowsGo env ((cat, r) :: t) labs seen =
          scoreRowsGo env t (modifyLab r.lab (defaultLab r.lab (logoOr env r.lab_logo r.lab))
            (rowUpd cat r true) labs) (r.model_id :: seen) := by
        simp [scoreRowsGo, hm]
      have e2 : totalVolGo ((cat, r) :: t) seen 0 =
          r.or_volume.getD 0 + totalVolGo t (r.model_id :: seen) 0 := by
        have e3 : totalVolGo ((cat, r) :: t) seen 0 =
            totalVolGo t (r.model_id :: seen) (0 + r.or_volume.getD 0) := by
          simp [totalVolGo, hm]
        rw [e3, totalVolGo_acc]
        ring
      rw [e1, e2, ih,
        labVolSum_modifyLab _ _ _ (r.or_volume.getD 0) rfl
          (fun e => by rw [rowUpd_mv]; simp)]
      ring

theorem riserPass_labVolSum (env : String → Option String) (rows : List MergedRow) :
    ∀ labs, labVolSum (riserPass env rows labs) = labVolSum labs := by
  induction rows with
  | nil => intro labs; rfl
  | cons r t ih =>
    intro labs
    rw [show riserPass env (r :: t) labs = riserPass env t
        (modifyLab r.lab (defaultLab r.lab (logoOr env r.lab_logo r.lab)) bumpRisers labs)
        from rfl]
    rw [ih, labVolSum_modifyLab _ _ _ 0 rfl (fun e => by simp [bumpRisers])]
    ring

theorem starPass_labVolSum (env : String → Option String) (stars : List StarRow) :
    ∀ labs, labVolSum (starPass env stars labs) = labVolSum labs := by
  induction stars with
  | nil => intro labs; rfl
  | cons s t ih =>
    intro labs
    rw [show starPass env (s :: t) labs = starPass env t
        (modifyLab s.row.lab (defaultLab s.row.lab (logoOr env s.row.lab_logo s.row.lab))
          bumpStars labs) from rfl]
    rw [ih, labVolSum_modifyLab _ _ _ 0 rfl (fun e => by simp [bumpStars])]
    ring

theorem scoreRowsGo_isSome (env : String → Option String) :
    ∀ (rows : List (Cat × MergedRow)) (labs : List (String × LabEntry)) (seen : List String),
      (∀ p ∈ labs, p.2.best_rank.isSome = true) →
      ∀ p ∈ scoreRowsGo env rows labs seen, p.2.best_rank.isSome = true := by
  intro rows
  induction rows with
  | nil => intro labs seen h; exact h
  | cons q t ih =>
    intro labs seen h
    obtain ⟨cat, r⟩ := q
    exact ih _ _ (modifyLab_pred (fun e => e.best_rank.isSome = true) _ _ _
      (fun e _ => rowUpd_isSome cat r _ e) (rowUpd_isSome cat r _ _) labs h)

theorem riserPass_inv (env : String → Option String) (rows : List MergedRow) :
    ∀ labs, (∀ p ∈ labs, p.2.best_rank = none → p.2.market_volume = 0) →
      ∀ p ∈ riserPass env rows labs, p.2.best_rank = none → p.2.market_volume = 0 := by
  induction rows with
  | nil => intro labs h; exact h
  | cons r t ih =>
    intro labs h
    exact ih _ (modifyLab_pred (fun e => e.best_rank = none → e.market_volume = 0)
      r.lab (defaultLab r.lab (logoOr env r.lab_logo r.lab)) bumpRisers
      (fun e he hb => he hb) (fun _ => rfl) labs h)

theorem starPass_inv (env : String → Option String) (stars : List StarRow) :
    ∀ labs, (∀ p ∈ labs, p.2.best_rank = none → p.2.market_volume = 0) →
      ∀ p ∈ starPass env stars labs, p.2.best_rank = none → p.2.market_volume = 0 := by
  induction stars with
  | nil => intro labs h; exact h
  | cons s t ih =>
    intro labs h
    exact ih _ (modifyLab_pred (fun e => e.best_rank = none → e.market_volume = 0)
      s.row.lab (defaultLab s.row.lab (logoOr env s.row.lab_logo s.row.lab)) bumpStars
      (fun e he hb => he hb) (fun _ => rfl) labs h)

theorem sum_pct (T : ℚ) (labs : List (String × LabEntry)) :
    ((labs.map (fun p => p.2.market_volume / T * 100)).sum) = labVolSum labs / T * 100 := by
  induction labs with
  | nil => simp [labVolSum]
  | cons p t ih =>
    simp only [List.map_cons, List.sum_cons, ih, labVolSum_cons]
    ring

theorem scorecard_sum_general (T : ℚ) (leaders : List String)
    (labs2 : List (String × LabEntry)) (key : ScoreEntry → ℚ)
    (hpos : 0 < T) (hTsum : labVolSum labs2 = T)
    (hinv : ∀ p ∈ labs2, p.2.best_rank = none → p.2.market_volume = 0) :
    pctSum (sortByKey key (((labs2.map Prod.snd).map (mkScoreEntry T leaders)).filter
      (fun e => e.best_rank.isSome))) = 100 := by
  have hzero : ∀ e ∈ (labs2.map Prod.snd).map (mkScoreEntry T leaders),
      (fun e : ScoreEntry => e.best_rank.isSome) e = false → e.market_share_pct = 0 := by
    intro e he hfalse
    rcases List.mem_map.1 he with ⟨b, hb, rfl⟩
    rcases List.mem_map.1 hb with ⟨p, hp, rfl⟩
    have hf2 : p.2.best_rank.isSome = false := hfalse
    have hnone : p.2.best_rank = none := by
      rcases hopt : p.2.best_rank with _ | v
      · rfl
      · rw [hopt] at hf2
        cases hf2
    have hmv := hinv p hp hnone
    show (if 0 < T then p.2.market_volume / T * 100 else 0) = 0
    rw [if_pos hpos, hmv, zero_div, zero_mul]
  have h3 : pctSum (sortByKey key (((labs2.map Prod.snd).map (mkScoreEntry T leaders)).filter
      (fun e => e.best_rank.isSome))) =
      pctSum (((labs2.map Prod.snd).map (mkScoreEntry T leaders)).filter
        (fun e => e.best_rank.isSome)) := by
    unfold pctSum
    exact ((sortByKey_perm key _).map _).sum_eq
  rw [h3]
  show ((((labs2.map Prod.snd).map (mkScoreEntry T leaders)).filter
      (fun e => e.best_rank.isSome)).map (fun e => e.market_share_pct)).sum = 100
  rw [sum_filter_of_zero _ _ _ hzero, List.map_map, List.map_map]
  calc ((labs2.map ((fun e : ScoreEntry => e.market_share_pct) ∘
          mkScoreEntry T leaders ∘ Prod.snd)).sum)
      = (labs2.map (fun p => p.2.market_volume / T * 100)).sum := by
        refine congrArg List.sum (congrArg (fun f => List.map f labs2) (funext fun p => ?_))
        show (if 0 < T then p.2.market_volume / T * 100 else 0) = p.2.market_volume / T * 100
        rw [if_pos hpos]
    _ = labVolSum labs2 / T * 100 := sum_pct T labs2
    _ = T / T * 100 := by rw [hTsum]
    _ = 100 := by rw [div_self (ne_of_gt hpos)]; ring

/-- C9: the market-share percentages of all returned publishers sum to
exactly 100 whenever the unique-entity total market volume is positive, and
are all 0 when the total volume is 0 (the guard prevents any division by
zero). -/
theorem scorecard_pct_sum_spec (env : String → Option String) (ar : AnalysisResult)
    (w : Window) :
    (0 < totalVolume ar → pctSum (get_company_scorecard env ar w) = 100) ∧
    (totalVolume ar = 0 → ∀ e ∈ get_company_scorecard env ar w, e.market_share_pct = 0) := by
  constructor
  · intro hpos
    have hA : labVolSum (scoreRowsGo env (taggedRows ar) [] []) = totalVolume ar := by
      rw [scoreRowsGo_labVolSum, labVolSum_nil, zero_add]
      rfl
    have hB : labVolSum (riserPass env
        (ar.fast_risers w Cat.general ++ ar.fast_risers w Cat.coding)
        (scoreRowsGo env (taggedRows ar) [] [])) = totalVolume ar := by
      rw [riserPass_labVolSum, hA]
    have hC : labVolSum (starPass env (ar.new_stars w) (riserPass env
        (ar.fast_risers w Cat.general ++ ar.fast_risers w Cat.coding)
        (scoreRowsGo env (taggedRows ar) [] []))) = totalVolume ar := by
      rw [starPass_labVolSum, hB]
    have hinv0 : ∀ p ∈ scoreRowsGo env (taggedRows ar) [] [],
        p.2.best_rank = none → p.2.market_volume = 0 := by
      intro p hp hn
      have := scoreRowsGo_isSome env (taggedRows ar) [] []
        (by intro q hq; cases hq) p hp
      rw [hn] at this
      cases this
    have hinv1 := riserPass_inv env
      (ar.fast_risers w Cat.general ++ ar.fast_risers w Cat.coding) _ hinv0
    have hinv2 := starPass_inv env (ar.new_stars w) _ hinv1
    exact scorecard_sum_general (totalVolume ar) (leaderLabs ar) _
      (fun e => -e.investment_score) hpos hC hinv2
  · intro hz e he
    obtain ⟨b, rfl⟩ := scorecard_mem env ar w e he
    show (if 0 < totalVolume ar then b.market_volume / totalVolume ar * 100 else 0) = 0
    rw [hz]
    exact if_neg (lt_irrefl 0)

/-- Witness for C9 at concrete inputs: a positive-volume result summing to
100 and a zero-volume result whose only entry has share 0. -/
theorem scorecard_pct_sum_spec_witness :
    pctSum (get_company_scorecard env0 arC9 Window.w7) = 100 ∧
    ((get_company_scorecard env0 arC1 Window.w7).get
        ⟨0, by with_unfolding_all decide⟩).market_share_pct = 0 :=
  ⟨(scorecard_pct_sum_spec env0 arC9 Window.w7).1 (by with_unfolding_all decide),
   (scorecard_pct_sum_spec env0 arC1 Window.w7).2 (by with_unfolding_all decide) _
     (List.get_mem _ _ _)⟩

/-! ## Best-value normalization (C2) -/

theorem foldl_max_const (c : ℚ) : ∀ l : List ℚ, (∀ x ∈ l, x = c) → List.foldl max c l = c := by
  intro l
  induction l with
  | nil => intro _; rfl
  | cons x xs ih =>
    intro h
    have hx : x = c := h x (List.mem_cons_self _ _)
    have : max c x = c := by rw [hx, max_self]
    simp only [List.foldl_cons, this]
    exact ih (fun y hy => h y (List.mem_cons_of_mem _ hy))

theorem foldl_min_const (c : ℚ) : ∀ l : List ℚ, (∀ x ∈ l, x = c) → List.foldl min c l = c := by
  intro l
  induction l with
  | nil => intro _; rfl
  | cons x xs ih =>
    intro h
    have hx : x = c := h x (List.mem_cons_self _ _)
    have : min c x = c := by rw [hx, min_self]
    simp only [List.foldl_cons, this]
    exact ih (fun y hy => h y (List.mem_cons_of_mem _ hy))

theorem listMaxQ_const (c : ℚ) (l : List ℚ) (hne : l ≠ []) (h : ∀ x ∈ l, x = c) :
    listMaxQ l = c := by
  cases l with
  | nil => exact absurd rfl hne
  | cons x xs =>
    have hx : x = c := h x (List.mem_cons_self _ _)
    show xs.foldl max x = c
    rw [hx]
    exact foldl_max_const c xs (fun y hy => h y (List.mem_cons_of_mem _ hy))

theorem listMinQ_const (c : ℚ) (l : List ℚ) (hne : l ≠ []) (h : ∀ x ∈ l, x = c) :
    listMinQ l = c := by
  cases l with
  | nil => exact absurd rfl hne
  | cons x xs =>
    have hx : x = c := h x (List.mem_cons_self _ _)
    show xs.foldl min x = c
    rw [hx]
    exact foldl_min_const c xs (fun y hy => h y (List.mem_cons_of_mem _ hy))

theorem maxByKey_cons_isSome (f : α → ℚ) (a : α) (as : List α) :
    (maxByKey f (a :: as)).isSome = true := by
  suffices h : ∀ (l : List α) (c : α),
      (List.foldl (fun acc x =>
        match acc with
        | none => some x
        | some c => if f x > f c then some x else some c) (some c) l).isSome = true by
    exact h as a
  intro l
  induction l with
  | nil => intro c; rfl
  | cons x xs ih =>
    intro c
    show (List.foldl _ (if f x > f c then some x else some c) xs).isSome = true
    by_cases hx : f x > f c
    · rw [if_pos hx]; exact ih x
    · rw [if_neg hx]; exact ih c

/-- C2 (amended): within the best-value candidate pool, a degenerate
quality factor normalizes to full credit `1.0` and a degenerate price
factor normalizes to full credit `1.0`, but a degenerate usage-volume
factor normalizes to `0.0` (no credit); in every case the guard avoids the
division, no error is raised, and a non-empty eligible pool always yields a
winner. -/
theorem bestValue_degenerate_norms (lst : List MergedRow) (ex : Option String) :
    (∀ m ∈ validValue lst ex, (∀ m2 ∈ validValue lst ex, m2.elo = m.elo) →
        eloNormF (listMinQ ((validValue lst ex).map (fun m => m.elo)))
          (listMaxQ ((validValue lst ex).map (fun m => m.elo))) m.elo = 1) ∧
    (∀ m ∈ validValue lst ex,
        (∀ m2 ∈ validValue lst ex, m2.price_input.getD 0 = m.price_input.getD 0) →
        priceNormF (listMinQ ((validValue lst ex).map (fun m => m.price_input.getD 0)))
          (listMaxQ ((validValue lst ex).map (fun m => m.price_input.getD 0)))
          (m.price_input.getD 0) = 1) ∧
    (∀ m ∈ validValue lst ex,
        (∀ m2 ∈ validValue lst ex, m2.or_volume.getD 0 = m.or_volume.getD 0) →
        volNormF (listMinQ ((validValue lst ex).map (fun m => m.or_volume.getD 0)))
          (listMaxQ ((validValue lst ex).map (fun m => m.or_volume.getD 0)))
          (m.or_volume.getD 0) = 0) ∧
    (validValue lst ex ≠ [] → (bestByValue lst ex).isSome = true) := by
  have hconst : ∀ (f : MergedRow → ℚ), ∀ m ∈ validValue lst ex,
      (∀ m2 ∈ validValue lst ex, f m2 = f m) →
      listMaxQ ((validValue lst ex).map f) = f m ∧
        listMinQ ((validValue lst ex).map f) = f m := by
    intro f m hm hall
    have hne : (validValue lst ex).map f ≠ [] :=
      List.ne_nil_of_mem (List.mem_map_of_mem f hm)
    have hc : ∀ x ∈ (validValue lst ex).map f, x = f m := by
      intro x hx
      rcases List.mem_map.1 hx with ⟨m2, hm2, rfl⟩
      exact hall m2 hm2
    exact ⟨listMaxQ_const _ _ hne hc, listMinQ_const _ _ hne hc⟩
  refine ⟨?_, ?_, ?_, ?_⟩
  · intro m hm hall
    obtain ⟨hmax, hmin⟩ := hconst (fun m => m.elo) m hm hall
    rw [hmax, hmin]
    simp [eloNormF]
  · intro m hm hall
    obtain ⟨hmax, hmin⟩ := hconst (fun m => m.price_input.getD 0) m hm hall
    rw [hmax, hmin]
    simp [priceNormF]
  · intro m hm hall
    obtain ⟨hmax, hmin⟩ := hconst (fun m => m.or_volume.getD 0) m hm hall
    rw [hmax, hmin]
    simp [volNormF]
  · intro hne
    unfold bestByValue bestByValueValid
    rcases hv : validValue lst ex with _ | ⟨a, as⟩
    · exact absurd hv hne
    · exact maxByKey_cons_isSome _ a as

/-- Counterexample to C2 as stated: on the pool `poolC2`, where every
eligible candidate shares usage volume 7, the volume factor used by
`best_by_value` normalizes to `0.0`, not to full credit `1.0` (the quality
and price factors do get `1.0`); no error is raised and a winner is still
returned. -/
theorem bestValue_vol_norm_cex :
    validValue poolC2 none = poolC2 ∧
    volNormF (listMinQ ((validValue poolC2 none).map (fun m => m.or_volume.getD 0)))
      (listMaxQ ((validValue poolC2 none).map (fun m => m.or_volume.getD 0))) 7 = 0 ∧
    eloNormF (listMinQ ((validValue poolC2 none).map (fun m => m.elo)))
      (listMaxQ ((validValue poolC2 none).map (fun m => m.elo))) 10 = 1 ∧
    (bestByValue poolC2 none).isSome = true ∧
    (0 : ℚ) ≠ 1 := by
  with_unfolding_all decide

/-- Witness for the amended C2 at the concrete degenerate pool. -/
theorem bestValue_degenerate_norms_witness :
    volNormF (listMinQ ((validValue poolC2 none).map (fun m => m.or_volume.getD 0)))
      (listMaxQ ((validValue poolC2 none).map (fun m => m.or_volume.getD 0)))
      ((poolC2.get ⟨0, by decide⟩).or_volume.getD 0) = 0 ∧
    (bestByValue poolC2 none).isSome = true :=
  ⟨(bestValue_degenerate_norms poolC2 none).2.2.1 (poolC2.get ⟨0, by decide⟩)
      (by with_unfolding_all decide) (by with_unfolding_all decide),
   (bestValue_degenerate_norms poolC2 none).2.2.2 (by with_unfolding_all decide)⟩

/-! ## Runner-up selection (C3) -/

theorem bestByElo_exclude (lst : List MergedRow) (e : String) :
    bestByElo lst (some e) = bestByElo (lst.filter (fun m => m.model_id != e)) none := by
  unfold bestByElo
  rw [filter_filter_eq]
  apply congrArg
  apply filter_ext
  intro m
  cases h1 : decide (m.elo ≠ 0) <;> cases h2 : m.model_id != e <;> simp [exOk, h1, h2]

theorem validValue_exclude (lst : List MergedRow) (e : String) :
    validValue lst (some e) = validValue (lst.filter (fun m => m.model_id != e)) none := by
  unfold validValue
  rw [filter_filter_eq]
  apply filter_ext
  intro m
  cases h1 : decide (m.elo ≠ 0) <;> cases h2 : m.model_id != e <;>
    cases h3 : decide (m.price_input.getD 0 ≠ 0) <;> simp [exOk, h1, h2, h3]

theorem bestByValue_exclude (lst : List MergedRow) (e : String) :
    bestByValue lst (some e) = bestByValue (lst.filter (fun m => m.model_id != e)) none := by
  unfold bestByValue
  rw [validValue_exclude]

theorem bestLongContext_exclude (lst : List MergedRow) (minCtx : ℚ) (e : String) :
    bestLongContext lst minCtx (some e) =
      bestLongContext (lst.filter (fun m => m.model_id != e)) minCtx none := by
  unfold bestLongContext
  rw [filter_filter_eq]
  apply congrArg
  apply filter_ext
  intro m
  cases h1 : decide (m.elo ≠ 0) <;> cases h2 : m.model_id != e <;>
    cases h3 : decide (m.context_length.getD 0 ≥ minCtx) <;> simp [exOk, h1, h2, h3]

theorem idsContains_filter (lst : List MergedRow) (e x : String) :
    (((lst.filter (fun m => m.model_id != e)).map (fun m => m.model_id)).contains x) =
      (((lst.map (fun m => m.model_id)).contains x) && (x != e)) := by
  rw [Bool.eq_iff_iff]
  simp only [Bool.and_eq_true, List.elem_iff, List.mem_map, List.mem_filter, bne_iff_ne]
  constructor
  · rintro ⟨m, ⟨hm, hne⟩, rfl⟩
    exact ⟨⟨m, hm, rfl⟩, hne⟩
  · rintro ⟨⟨m, hm, rfl⟩, hne⟩
    exact ⟨m, ⟨hm, hne⟩, rfl⟩

theorem bestCoding_exclude (codingRows : List MergedRow) (lst : List MergedRow) (e : String) :
    bestCoding codingRows lst (some e) =
      bestCoding codingRows (lst.filter (fun m => m.model_id != e)) none := by
  unfold bestCoding
  apply congrArg
  apply congrArg
  apply filter_ext
  intro m
  rw [idsContains_filter]
  cases h1 : (lst.map (fun m => m.model_id)).contains m.model_id <;>
    cases h2 : m.model_id != e <;> simp [exOk, h1, h2]

theorem bestByElo_removeW (pool : List MergedRow) (w : Option MergedRow) :
    bestByElo pool (idOf w) = bestByElo (removeW pool w) none := by
  cases w
  · rfl
  · exact bestByElo_exclude pool _

theorem bestByValue_removeW (pool : List MergedRow) (w : Option MergedRow) :
    bestByValue pool (idOf w) = bestByValue (removeW pool w) none := by
  cases w
  · rfl
  · exact bestByValue_exclude pool _

theorem bestLongContext_removeW (pool : List MergedRow) (minCtx : ℚ) (w : Option MergedRow) :
    bestLongContext pool minCtx (idOf w) = bestLongContext (removeW pool w) minCtx none := by
  cases w
  · rfl
  · exact bestLongContext_exclude pool minCtx _

theorem bestCoding_removeW (codingRows pool : List MergedRow) (w : Option MergedRow) :
    bestCoding codingRows pool (idOf w) = bestCoding codingRows (removeW pool w) none := by
  cases w
  · rfl
  · exact bestCoding_exclude codingRows pool _

/-- C3 (amended): for the best-overall, best-value, best-coding and
best-long-context scenarios, the runner-up equals the winner of re-running
the same selection on the partition with the winner's identifier removed
from the candidate pool; for the most-adopted scenario, however, the
winner's identifier is excluded only after the top-N truncation by quality
score (the exclusion parameter acts inside the truncated pool, not before
the truncation). -/
theorem picks_runner_up_spec (ar : AnalysisResult) :
    ((get_model_picks ar).best_cloud_ru =
      bestByElo (removeW (cloudOf ar) (get_model_picks ar).best_cloud) none) ∧
    ((get_model_picks ar).best_oss_ru =
      bestByElo (removeW (ossOf ar) (get_model_picks ar).best_oss) none) ∧
    ((get_model_picks ar).best_value_cloud_ru =
      bestByValue (removeW (cloudOf ar) (get_model_picks ar).best_value_cloud) none) ∧
    ((get_model_picks ar).best_value_oss_ru =
      bestByValue (removeW (ossOf ar) (get_model_picks ar).best_value_oss) none) ∧
    ((get_model_picks ar).best_coding_cloud_ru =
      bestCoding ar.rankings_coding
        (removeW (cloudOf ar) (get_model_picks ar).best_coding_cloud) none) ∧
    ((get_model_picks ar).best_coding_oss_ru =
      bestCoding ar.rankings_coding
        (removeW (ossOf ar) (get_model_picks ar).best_coding_oss) none) ∧
    ((get_model_picks ar).best_long_ctx_cloud_ru =
      bestLongContext (removeW (cloudOf ar) (get_model_picks ar).best_long_ctx_cloud)
        128000 none) ∧
    ((get_model_picks ar).best_long_ctx_oss_ru =
      bestLongContext (removeW (ossOf ar) (get_model_picks ar).best_long_ctx_oss)
        128000 none) ∧
    ((get_model_picks ar).most_adopted_cloud_ru =
      mostAdopted (cloudOf ar) 30 (idOf (get_model_picks ar).most_adopted_cloud)) ∧
    ((get_model_picks ar).most_adopted_oss_ru =
      mostAdopted (ossOf ar) 30 (idOf (get_model_picks ar).most_adopted_oss)) :=
  ⟨bestByElo_removeW (cloudOf ar) (bestByElo (cloudOf ar) none),
   bestByElo_removeW (ossOf ar) (bestByElo (ossOf ar) none),
   bestByValue_removeW (cloudOf ar) (bestByValue (cloudOf ar) none),
   bestByValue_removeW (ossOf ar) (bestByValue (ossOf ar) none),
   bestCoding_removeW ar.rankings_coding (cloudOf ar)
     (bestCoding ar.rankings_coding (cloudOf ar) none),
   bestCoding_removeW ar.rankings_coding (ossOf ar)
     (bestCoding ar.rankings_coding (ossOf ar) none),
   bestLongContext_removeW (cloudOf ar) 128000 (bestLongContext (cloudOf ar) 128000 none),
   bestLongContext_removeW (ossOf ar) 128000 (bestLongContext (ossOf ar) 128000 none),
   rfl, rfl⟩

set_option maxRecDepth 40000 in
/-- Counterexample to C3 as stated: on `arC3`, the most-adopted winner is
`m1`; the code's runner-up is `m2` (the best remaining volume inside the
original quality top-30), but re-running the selection with `m1` removed
from the candidate pool before the top-30 truncation admits `m31` (volume
1000) and returns it instead. -/
theorem most_adopted_ru_cex :
    idOf (get_model_picks arC3).most_adopted_cloud = some "m1" ∧
    idOf (get_model_picks arC3).most_adopted_cloud_ru = some "m2" ∧
    idOf (mostAdopted (removeW (cloudOf arC3) (get_model_picks arC3).most_adopted_cloud)
      30 none) = some "m31" ∧
    (some "m2" : Option String) ≠ some "m31" := by
  with_unfolding_all decide

end ModelMonitor
